import Mathlib

/-!
Verification of the ClusterLink control-plane core: the Import reconciliation
state machine and the connection policy engine (ACL evaluator and
load-balancing selector), shallowly embedded as executable Lean definitions.

The repository snapshot contains the end-to-end tests of the Import
reconciler (`tests/e2e/k8s`) and the CLI entry points of the policy engine
(`cmd/gwctl/subcommand/policy.go`), but not the reconciler and policy-engine
implementation packages themselves (`pkg/controlplane/control`,
`pkg/policyEngine`).  The definitions below therefore model those missing
parts from the specification, and every statement is proved against this
model.  Each modelled definition carries a doc comment naming what is
missing and which part of the spec it follows.
-/

namespace ClusterLink

/-! ## Association lists

The reservation table, the Import store and the managed-object store are
modelled as association lists with first-match lookup. -/

/-- First-match lookup in an association list. -/
def alookup {α β : Type} [DecidableEq α] : List (α × β) → α → Option β
  | [], _ => none
  | (k', v) :: rest, k => if k' = k then some v else alookup rest k

/-- Replace the first binding of `k`, or append one if absent. -/
def aupdate {α β : Type} [DecidableEq α] : List (α × β) → α → β → List (α × β)
  | [], k, v => [(k, v)]
  | (k', v') :: rest, k, v =>
    if k' = k then (k, v) :: rest else (k', v') :: aupdate rest k v

/-- Remove every binding of `k`. -/
def aremove {α β : Type} [DecidableEq α] : List (α × β) → α → List (α × β)
  | [], _ => []
  | (k', v) :: rest, k =>
    if k' = k then aremove rest k else (k', v) :: aremove rest k

theorem alookup_aupdate_self {α β : Type} [DecidableEq α]
    (l : List (α × β)) (k : α) (v : β) : alookup (aupdate l k v) k = some v := by
  induction l with
  | nil => simp [aupdate, alookup]
  | cons e rest ih =>
    obtain ⟨k', v'⟩ := e
    by_cases h : k' = k <;> simp [aupdate, alookup, h, ih]

theorem alookup_aupdate_ne {α β : Type} [DecidableEq α]
    (l : List (α × β)) (k k' : α) (v : β) (h : k' ≠ k) :
    alookup (aupdate l k v) k' = alookup l k' := by
  have hk : ¬(k = k') := fun hh => h hh.symm
  induction l with
  | nil => simp [aupdate, alookup, hk]
  | cons e rest ih =>
    obtain ⟨k₀, v₀⟩ := e
    by_cases h₀ : k₀ = k
    · subst h₀
      simp [aupdate, alookup, hk]
    · by_cases h₁ : k₀ = k' <;> simp [aupdate, alookup, h₀, h₁, h, ih]

theorem alookup_aremove_self {α β : Type} [DecidableEq α]
    (l : List (α × β)) (k : α) : alookup (aremove l k) k = none := by
  induction l with
  | nil => simp [aremove, alookup]
  | cons e rest ih =>
    obtain ⟨k₀, v₀⟩ := e
    by_cases h₀ : k₀ = k <;> simp [aremove, alookup, h₀, ih]

theorem alookup_aremove_ne {α β : Type} [DecidableEq α]
    (l : List (α × β)) (k k' : α) (h : k' ≠ k) :
    alookup (aremove l k) k' = alookup l k' := by
  induction l with
  | nil => simp [aremove, alookup]
  | cons e rest ih =>
    obtain ⟨k₀, v₀⟩ := e
    by_cases h₀ : k₀ = k
    · subst h₀
      have hk : ¬(k₀ = k') := fun hh => h hh.symm
      simp [aremove, alookup, hk, ih]
    · by_cases h₁ : k₀ = k' <;> simp [aremove, alookup, h₀, h₁, h, ih]

/-! ## ACL evaluator

Modelled from the spec: the `pkg/policyEngine` ACL evaluator is not part of
the snapshot (only its CLI caller `cmd/gwctl/subcommand/policy.go` is).
Section 4.5 of the spec: candidates are rules whose three pattern fields
each equal the input or are the wildcard `*`; lowest priority value wins,
ties broken by fewest wildcard fields, remaining ties by most recent
insertion; no candidate defaults to Deny. -/

/-- Action of an ACL rule (`--action`: 0 allow, 1 deny in the CLI). -/
inductive Action where
  | allow
  | deny
deriving DecidableEq, Repr

/-- An ACL rule: three patterns, a priority (0 = highest precedence) and an
action, as sent by `SendACLPolicy`. -/
structure ACLRule where
  serviceSrc : String
  serviceDst : String
  gwDest : String
  priority : Nat
  action : Action
deriving DecidableEq, Repr

/-- The wildcard pattern (`*` in the CLI flags). -/
def wildcard : String := "*"

/-- A pattern matches a value if it is the wildcard or equals it exactly. -/
def matchField (pat v : String) : Bool :=
  decide (pat = wildcard) || decide (pat = v)

/-- A rule is a candidate for a triple when all three fields match. -/
def ruleMatches (r : ACLRule) (src dst gw : String) : Bool :=
  matchField r.serviceSrc src && matchField r.serviceDst dst && matchField r.gwDest gw

/-- Number of wildcard fields of a rule (its un-specificity). -/
def wildcardCount (r : ACLRule) : Nat :=
  (if r.serviceSrc = wildcard then 1 else 0) +
    (if r.serviceDst = wildcard then 1 else 0) +
    (if r.gwDest = wildcard then 1 else 0)

/-- Strict precedence between rules: strictly lower priority value, or equal
priority and strictly fewer wildcard fields. -/
def precedes (r₁ r₂ : ACLRule) : Bool :=
  decide (r₁.priority < r₂.priority) ||
    (decide (r₁.priority = r₂.priority) && decide (wildcardCount r₁ < wildcardCount r₂))

/-- Non-strict precedence, as a proposition: lower priority value, or equal
priority and no more wildcard fields. -/
def PrecedesLE (r₁ r₂ : ACLRule) : Prop :=
  r₁.priority < r₂.priority ∨
    (r₁.priority = r₂.priority ∧ wildcardCount r₁ ≤ wildcardCount r₂)

/-- Left fold keeping the current best candidate unless a strictly better one
appears; on a most-recent-first list this makes the most recent rule win ties. -/
def pickBest (c : ACLRule) (cs : List ACLRule) : ACLRule :=
  cs.foldl (fun best r => if precedes r best then r else best) c

/-- The candidate rules of a triple, in rule-store order (most recent first). -/
def aclCandidates (rules : List ACLRule) (src dst gw : String) : List ACLRule :=
  rules.filter (fun r => ruleMatches r src dst gw)

/-- Modelled from the spec: `Evaluate` of the missing ACL evaluator
(spec 4.5).  Returns the action of the best candidate, `deny` if none. -/
def aclEvaluate (rules : List ACLRule) (src dst gw : String) : Action :=
  match aclCandidates rules src dst gw with
  | [] => Action.deny
  | c :: cs => (pickBest c cs).action

/-- Key of an ACL rule whose ordered triple (src, dst, gw) identifies it in
the mutable rule set (spec section 3: Add/Delete operate on that key). -/
def aclKeyOf (r : ACLRule) : String × String × String :=
  (r.serviceSrc, r.serviceDst, r.gwDest)

/-- Modelled from the spec: `Add` on the missing ACL rule store.  Replaces
any rule with the same key and makes the new rule the most recent (head). -/
def aclAdd (rules : List ACLRule) (r : ACLRule) : List ACLRule :=
  r :: rules.filter (fun x => decide ¬(aclKeyOf x = aclKeyOf r))

/-- Modelled from the spec: `Delete` on the missing ACL rule store, by key,
ignoring priority and action; deleting an absent key is a no-op, not an error. -/
def aclDelete (rules : List ACLRule) (src dst gw : String) : List ACLRule :=
  rules.filter (fun x => decide ¬(aclKeyOf x = (src, dst, gw)))

/-- Linear measure realizing the lexicographic (priority, wildcards) order;
sound because a rule has at most 3 wildcard fields. -/
def aclMeasure (r : ACLRule) : Nat :=
  4 * r.priority + wildcardCount r

theorem wildcardCount_le_three (r : ACLRule) : wildcardCount r ≤ 3 := by
  unfold wildcardCount
  split <;> split <;> split <;> omega

theorem precedes_iff (r₁ r₂ : ACLRule) :
    precedes r₁ r₂ = true ↔ aclMeasure r₁ < aclMeasure r₂ := by
  have h₁ := wildcardCount_le_three r₁
  have h₂ := wildcardCount_le_three r₂
  unfold precedes aclMeasure
  simp only [Bool.or_eq_true, Bool.and_eq_true, decide_eq_true_eq]
  omega

theorem precedesLE_iff (r₁ r₂ : ACLRule) :
    PrecedesLE r₁ r₂ ↔ aclMeasure r₁ ≤ aclMeasure r₂ := by
  have h₁ := wildcardCount_le_three r₁
  have h₂ := wildcardCount_le_three r₂
  unfold PrecedesLE aclMeasure
  omega

/-- `pickBest` returns the first candidate (in most-recent-first order)
achieving the minimal (priority, wildcard-count) measure. -/
theorem pickBest_first_min (cs : List ACLRule) (c : ACLRule) :
    ∃ pre post, c :: cs = pre ++ pickBest c cs :: post ∧
      (∀ x ∈ c :: cs, aclMeasure (pickBest c cs) ≤ aclMeasure x) ∧
      (∀ x ∈ pre, aclMeasure (pickBest c cs) < aclMeasure x) := by
  induction cs generalizing c with
  | nil =>
    refine ⟨[], [], rfl, ?_, by simp⟩
    intro x hx
    simp only [List.mem_singleton] at hx
    simp [pickBest, hx]
  | cons r rest ih =>
    have hfold : pickBest c (r :: rest) = pickBest (if precedes r c then r else c) rest := rfl
    by_cases hrc : precedes r c = true
    · have hlt : aclMeasure r < aclMeasure c := (precedes_iff r c).mp hrc
      obtain ⟨pre', post', hdec, hmin, hstrict⟩ := ih r
      rw [hfold, if_pos hrc]
      refine ⟨c :: pre', post', ?_, ?_, ?_⟩
      · rw [List.cons_append, ← hdec]
      · intro x hx
        rcases List.mem_cons.mp hx with hx | hx
        · subst hx
          have := hmin r (by simp)
          omega
        · exact hmin x hx
      · intro x hx
        rcases List.mem_cons.mp hx with hx | hx
        · subst hx
          have := hmin r (by simp)
          omega
        · exact hstrict x hx
    · have hge : aclMeasure c ≤ aclMeasure r := by
        have := (precedes_iff r c).not.mp hrc
        omega
      obtain ⟨pre', post', hdec, hmin, hstrict⟩ := ih c
      rw [hfold, if_neg hrc]
      cases pre' with
      | nil =>
        simp only [List.nil_append] at hdec
        injection hdec with h₁ h₂
        refine ⟨[], r :: rest, ?_, ?_, by simp⟩
        · rw [List.nil_append, ← h₁]
        · intro x hx
          rw [← h₁]
          rcases List.mem_cons.mp hx with hx | hx
          · subst hx; omega
          rcases List.mem_cons.mp hx with hx | hx
          · subst hx; omega
          · have := hmin x (List.mem_cons.mpr (Or.inr hx))
            rw [← h₁] at this
            omega
      | cons p ps =>
        rw [List.cons_append] at hdec
        injection hdec with h₁ h₂
        have hbc : aclMeasure (pickBest c rest) < aclMeasure c := by
          have := hstrict p (by simp)
          rw [← h₁] at this
          exact this
        refine ⟨c :: r :: ps, post', ?_, ?_, ?_⟩
        · rw [List.cons_append, List.cons_append, ← h₂]
        · intro x hx
          rcases List.mem_cons.mp hx with hx | hx
          · subst hx; omega
          rcases List.mem_cons.mp hx with hx | hx
          · subst hx; omega
          · exact hmin x (List.mem_cons.mpr (Or.inr hx))
        · intro x hx
          rcases List.mem_cons.mp hx with hx | hx
          · subst hx; omega
          rcases List.mem_cons.mp hx with hx | hx
          · subst hx; omega
          · exact hstrict x (List.mem_cons.mpr (Or.inr hx))

/-- The two rules of the spec's ACL example: an allow for (svcA, svcB, *) at
priority 1 and a catch-all deny at priority 5. -/
def exampleACLRules : List ACLRule :=
  [⟨"svcA", "svcB", "*", 1, Action.allow⟩, ⟨"*", "*", "*", 5, Action.deny⟩]

/-- C2: ACL evaluation reference semantics.  `aclEvaluate` returns `deny`
when no rule matches; otherwise it returns the action of a candidate rule
that is minimal for (priority, wildcard count) among all candidates and is
strictly better than every candidate inserted more recently than it (so the
most recent rule wins among equals).  On the spec's example rule set,
`Evaluate(svcA, svcB, gw1) = Allow` and `Evaluate(svcA, svcC, gw1) = Deny`. -/
theorem acl_evaluate_reference_semantics :
    (∀ rules src dst gw, aclCandidates rules src dst gw = [] →
      aclEvaluate rules src dst gw = Action.deny)
    ∧ (∀ rules src dst gw c cs, aclCandidates rules src dst gw = c :: cs →
        ∃ pre best post, c :: cs = pre ++ best :: post ∧
          aclEvaluate rules src dst gw = best.action ∧
          (∀ x ∈ c :: cs, PrecedesLE best x) ∧
          (∀ x ∈ pre, precedes best x = true))
    ∧ aclEvaluate exampleACLRules "svcA" "svcB" "gw1" = Action.allow
    ∧ aclEvaluate exampleACLRules "svcA" "svcC" "gw1" = Action.deny := by
  refine ⟨?_, ?_, by decide, by decide⟩
  · intro rules src dst gw h
    unfold aclEvaluate
    rw [h]
  · intro rules src dst gw c cs h
    obtain ⟨pre, post, hdec, hmin, hstrict⟩ := pickBest_first_min cs c
    refine ⟨pre, pickBest c cs, post, hdec, ?_, ?_, ?_⟩
    · unfold aclEvaluate
      rw [h]
    · intro x hx
      exact (precedesLE_iff _ _).mpr (hmin x hx)
    · intro x hx
      exact (precedes_iff _ _).mpr (hstrict x hx)

theorem acl_evaluate_reference_semantics_witness :
    aclEvaluate [] "svcA" "svcB" "gw1" = Action.deny ∧
    (∃ pre best post,
      [ACLRule.mk "svcA" "svcB" "*" 1 Action.allow,
        ACLRule.mk "*" "*" "*" 5 Action.deny] = pre ++ best :: post ∧
      aclEvaluate exampleACLRules "svcA" "svcB" "gw1" = best.action ∧
      (∀ x ∈ [ACLRule.mk "svcA" "svcB" "*" 1 Action.allow,
        ACLRule.mk "*" "*" "*" 5 Action.deny], PrecedesLE best x) ∧
      (∀ x ∈ pre, precedes best x = true)) :=
  ⟨acl_evaluate_reference_semantics.1 [] "svcA" "svcB" "gw1" (by decide),
    acl_evaluate_reference_semantics.2.1 exampleACLRules "svcA" "svcB" "gw1" _ _ (by decide)⟩

/-! ## Load-balancing selector

Modelled from the spec: the `pkg/policyEngine` LB selector is not part of
the snapshot (only the CLI flag `--policy random|ecmp|static` is).
Spec 4.6: strategy lookup uses the same pattern matching and specificity
rule as the ACL evaluator restricted to LBPolicy entries, with default
strategy `random`; `static` always picks the first candidate of a fixed
configured order that is present, falling through to the next configured
one when absent. -/

/-- A load-balancing strategy (`--policy` flag values). -/
inductive LBStrategy where
  | random
  | ecmp
  | static
deriving DecidableEq, Repr

/-- An LB policy entry: three patterns and a strategy, as sent by
`SendLBPolicy`. -/
structure LBPolicy where
  serviceSrc : String
  serviceDst : String
  gwDest : String
  strategy : LBStrategy
deriving DecidableEq, Repr

/-- All three patterns of an LB policy match the triple. -/
def lbMatches (p : LBPolicy) (src dst gw : String) : Bool :=
  matchField p.serviceSrc src && matchField p.serviceDst dst && matchField p.gwDest gw

/-- Number of wildcard fields of an LB policy. -/
def lbWildcardCount (p : LBPolicy) : Nat :=
  (if p.serviceSrc = wildcard then 1 else 0) +
    (if p.serviceDst = wildcard then 1 else 0) +
    (if p.gwDest = wildcard then 1 else 0)

/-- Modelled from the spec: strategy lookup of the missing LB selector.
Most specific matching policy wins, most recent wins ties, default is
`random` when nothing matches (spec 4.6). -/
def lbLookup (ps : List LBPolicy) (src dst gw : String) : LBStrategy :=
  match ps.filter (fun p => lbMatches p src dst gw) with
  | [] => LBStrategy.random
  | c :: cs =>
    (cs.foldl (fun best p =>
      if lbWildcardCount p < lbWildcardCount best then p else best) c).strategy

/-- The `static` strategy: first candidate of the fixed configured order
that is present in the current candidate set. -/
def staticSelect (configured candidates : List String) : Option String :=
  configured.find? (fun e => candidates.contains e)

/-- Modelled from the spec: `Select` of the missing LB selector.  For the
`random` and `ecmp` strategies the choice of a connection (its uniform draw
or its hash bucket) is abstracted by the `key` argument; `static` ignores
`key` and consults the configured order. -/
def lbSelect (ps : List LBPolicy) (configured : List String)
    (src dst gw : String) (candidates : List String) (key : Nat) : Option String :=
  match lbLookup ps src dst gw with
  | LBStrategy.static => staticSelect configured candidates
  | _ => candidates.get? (key % candidates.length)

theorem staticSelect_first_present (configured candidates : List String) (e : String)
    (h : staticSelect configured candidates = some e) :
    e ∈ configured ∧ e ∈ candidates ∧
      ∃ pre post, configured = pre ++ e :: post ∧ ∀ x ∈ pre, x ∉ candidates := by
  induction configured with
  | nil => simp [staticSelect] at h
  | cons c rest ih =>
    by_cases hc : candidates.contains c = true
    · rw [staticSelect, List.find?_cons_of_pos _ hc] at h
      obtain rfl : c = e := by injection h
      exact ⟨by simp, by simpa using hc, [], rest, rfl, by simp⟩
    · rw [staticSelect, List.find?_cons_of_neg _ hc] at h
      obtain ⟨h₁, h₂, pre, post, hdec, hpre⟩ := ih h
      refine ⟨by simp [h₁], h₂, c :: pre, post, by simp [hdec], ?_⟩
      intro x hx
      rcases List.mem_cons.mp hx with hx | hx
      · subst hx
        simpa using hc
      · exact hpre x hx

/-- C9: static load-balancing strategy.  Whenever the triple resolves to
strategy `static`, `lbSelect` returns the first candidate of the fixed
configured order that is present in the candidate set (falling through to
the next configured candidate when one is absent); in particular with
configured order [e1, e2] it returns e1 whenever e1 is a candidate, and e2
once e1 is absent and e2 is a candidate. -/
theorem lb_static_strategy :
    (∀ ps configured src dst gw candidates key e,
      lbLookup ps src dst gw = LBStrategy.static →
      lbSelect ps configured src dst gw candidates key = some e →
      e ∈ configured ∧ e ∈ candidates ∧
        ∃ pre post, configured = pre ++ e :: post ∧ ∀ x ∈ pre, x ∉ candidates)
    ∧ (∀ ps src dst gw candidates key e₁ e₂,
      lbLookup ps src dst gw = LBStrategy.static →
      (e₁ ∈ candidates →
        lbSelect ps [e₁, e₂] src dst gw candidates key = some e₁) ∧
      (e₁ ∉ candidates → e₂ ∈ candidates →
        lbSelect ps [e₁, e₂] src dst gw candidates key = some e₂)) := by
  constructor
  · intro ps configured src dst gw candidates key e hstrat hsel
    rw [lbSelect, hstrat] at hsel
    exact staticSelect_first_present configured candidates e hsel
  · intro ps src dst gw candidates key e₁ e₂ hstrat
    constructor
    · intro h₁
      rw [lbSelect, hstrat, staticSelect,
        List.find?_cons_of_pos _ (by simpa using h₁)]
    · intro h₁ h₂
      rw [lbSelect, hstrat, staticSelect,
        List.find?_cons_of_neg _ (by simpa using h₁),
        List.find?_cons_of_pos _ (by simpa using h₂)]

/-- A concrete LB policy set mapping every triple to `static`. -/
def exampleLBPolicies : List LBPolicy :=
  [⟨"*", "*", "*", LBStrategy.static⟩]

theorem lb_static_strategy_witness :
    ("e1" ∈ (["e1", "e2"] : List String) ∧ "e1" ∈ (["e1", "e2"] : List String) ∧
      ∃ pre post, (["e1", "e2"] : List String) = pre ++ "e1" :: post ∧
        ∀ x ∈ pre, x ∉ (["e1", "e2"] : List String))
    ∧ lbSelect exampleLBPolicies ["e1", "e2"] "s" "d" "g" ["e1", "e2"] 0 = some "e1"
    ∧ lbSelect exampleLBPolicies ["e1", "e2"] "s" "d" "g" ["e2"] 0 = some "e2" :=
  ⟨lb_static_strategy.1 exampleLBPolicies ["e1", "e2"] "s" "d" "g" ["e1", "e2"] 0 "e1"
      (by decide) (by decide),
    (lb_static_strategy.2 exampleLBPolicies "s" "d" "g" ["e1", "e2"] 0 "e1" "e2"
      (by decide)).1 (by decide),
    (lb_static_strategy.2 exampleLBPolicies "s" "d" "g" ["e2"] 0 "e1" "e2"
      (by decide)).2 (by decide) (by decide)⟩

/-! ## Import reconciliation data model

Modelled from the spec: the `pkg/controlplane/control` Import reconciler is
not part of the snapshot (only its end-to-end tests under `tests/e2e/k8s`
are).  The data model follows spec section 3 and the `v1alpha1` API used by
the tests: an Import has identity (namespace, name), a spec with exposed
port, optional explicit target port, merge flag and sources, and a status
with the `TargetPortValid` and `ServiceValid` conditions. -/

/-- Identity of an Import: (namespace, name). -/
structure ImportID where
  ns : String
  name : String
deriving DecidableEq, Repr

/-- One remote (peer, exported service) pair feeding an Import. -/
structure ImportSource where
  peer : String
  exportName : String
  exportNamespace : String
deriving DecidableEq, Repr

/-- Spec of an Import: exposed port, optional explicit target port, merge
flag (the `LabelImportMerge` label in the tests) and ordered sources. -/
structure ImportSpec where
  port : Nat
  targetPort : Option Nat
  merge : Bool
  sources : List ImportSource
deriving DecidableEq, Repr

/-- A named status condition: boolean value plus reason string. -/
structure Condition where
  value : Bool
  reason : String
deriving DecidableEq, Repr

/-- Status of an Import: the two documented conditions. -/
structure ImportStatus where
  targetPortValid : Condition
  serviceValid : Condition
deriving DecidableEq, Repr

/-- Status of a freshly created Import, before any reconciliation. -/
def initStatus : ImportStatus :=
  ⟨⟨false, "Pending"⟩, ⟨false, "Pending"⟩⟩

/-- An Import object as stored: its spec and its status. -/
structure ImportRecord where
  spec : ImportSpec
  status : ImportStatus
deriving DecidableEq, Repr

/-- The managed-by marker value (`control.AppName`). -/
def appName : String := "clusterlink"

/-- The local networking object making an Import reachable.  Ownership is
encoded by the three labels; `uid` is the store-assigned object identity,
fresh on every creation, so an unchanged `uid` witnesses that the object
was not deleted and recreated. -/
structure ServiceObject where
  port : Nat
  managedBy : Option String
  importName : Option String
  importNamespace : Option String
  uid : Nat
deriving DecidableEq, Repr

/-- Key of a managed service object: (namespace, name). -/
abbrev SvcKey := String × String

/-- Key of a port reservation: (namespace, effective target port). -/
abbrev ResKey := String × Nat

/-- The observable cluster state: the Import store, the managed-object
store, the namespace-scoped port-reservation table (owner is the Import
name, the namespace being part of the key), the per-peer live dataplane
endpoints, and the store's uid counter. -/
structure ClusterState where
  imports : List (ImportID × ImportRecord)
  services : List (SvcKey × ServiceObject)
  reservations : List (ResKey × String)
  dataplanes : List (String × List String)
  nextUID : Nat
deriving DecidableEq, Repr

/-- The empty cluster. -/
def initState : ClusterState := ⟨[], [], [], [], 0⟩

/-- The key of the service object managed for an Import. -/
def svcKey (id : ImportID) : SvcKey := (id.ns, id.name)

/-- Effective target port of an Import: the explicit one if set, else one
derived from the Import's identity (spec 4.1); the derivation is a
parameter of the model. -/
def effPort (derive : ImportID → Nat) (id : ImportID) (spec : ImportSpec) : Nat :=
  match spec.targetPort with
  | some p => p
  | none => derive id

/-- A write performed by the reconciler against the external store. -/
inductive Write where
  | createService (k : SvcKey)
  | updateService (k : SvcKey)
  | deleteService (k : SvcKey)
  | statusUpdate (id : ImportID)
deriving DecidableEq, Repr

/-! ## Conflict resolver (spec 4.1) -/

/-- Result of a reservation attempt. -/
inductive ReserveResult where
  | ok (tbl : List (ResKey × String))
  | conflict (owner : String)
deriving DecidableEq, Repr

/-- Modelled from the spec: `Reserve` of the missing conflict resolver
(spec 4.1).  A free port is reserved; a port already held by this owner
stays reserved with the table untouched; a port held by another owner is a
conflict and the table is not mutated. -/
def reserve (tbl : List (ResKey × String)) (k : ResKey) (owner : String) :
    ReserveResult :=
  match alookup tbl k with
  | none => ReserveResult.ok ((k, owner) :: tbl)
  | some o => if o = owner then ReserveResult.ok tbl else ReserveResult.conflict o

/-- Release the reservation of key `k` held by `owner`; reservations of
other owners or other keys are untouched (spec 4.1). -/
def resRelease : List (ResKey × String) → ResKey → String → List (ResKey × String)
  | [], _, _ => []
  | (k', o') :: rest, k, o =>
    if k' = k ∧ o' = o then resRelease rest k o
    else (k', o') :: resRelease rest k o

/-! ## Ownership classifier (spec 4.2) -/

/-- Result of classifying an existing object against an Import. -/
inductive Classification where
  | absent
  | foreignConflict
  | ownedByThis
  | adoptablyForeign
deriving DecidableEq, Repr

/-- Modelled from the spec: `Classify` of the missing ownership classifier
(spec 4.2).  An absent object is `absent`; an object carrying our
managed-by marker is `ownedByThis` when its owner labels name this Import
and `foreignConflict` otherwise; an object without our marker is
`adoptablyForeign` only in merge mode when its ownership labels are absent
(spec section 3's merge rule — the reading consistent with the invariant
that an object whose managed-by label names a different owner is foreign
and must never be mutated), and `foreignConflict` in every other case. -/
def classify (obj : Option ServiceObject) (id : ImportID) (mergeMode : Bool) :
    Classification :=
  match obj with
  | none => Classification.absent
  | some o =>
    if o.managedBy = some appName then
      if o.importName = some id.name ∧ o.importNamespace = some id.ns then
        Classification.ownedByThis
      else Classification.foreignConflict
    else if mergeMode ∧ o.managedBy = none then Classification.adoptablyForeign
    else Classification.foreignConflict

/-! ## Endpoint synchronizer (spec 4.3) -/

/-- The live dataplane endpoints able to carry a source's traffic. -/
def resolveSource (dps : List (String × List String)) (s : ImportSource) :
    List String :=
  (alookup dps s.peer).getD []

/-- Modelled from the spec: `Sync` of the missing endpoint synchronizer
(spec 4.3): the union, over the Import's sources, of the live dataplane
endpoints; empty when there are no sources or all dataplanes are down. -/
def syncEndpoints (sources : List ImportSource)
    (dps : List (String × List String)) : List String :=
  sources.foldl (fun acc s => acc.union (resolveSource dps s)) []

/-- Outcome of a connection attempt to an Import's exposed port. -/
inductive ConnResult where
  | serviceNotFound
  | connectionReset
  | routed (ep : String)
deriving DecidableEq, Repr

/-- Modelled from the spec: the data-path behaviour observed by the tests'
`AccessService`.  A missing service object yields not-found; an existing
object with an empty reachable-endpoint set yields a connection reset
(spec section 7, No-route); otherwise the connection is routed. -/
def connect (st : ClusterState) (id : ImportID) : ConnResult :=
  match alookup st.services (svcKey id) with
  | none => ConnResult.serviceNotFound
  | some _ =>
    match alookup st.imports id with
    | none => ConnResult.connectionReset
    | some rec =>
      match syncEndpoints rec.spec.sources st.dataplanes with
      | [] => ConnResult.connectionReset
      | e :: _ => ConnResult.routed e

/-! ## Import reconciler (spec 4.4) -/

/-- The `ServiceValid=true` condition; a single reason is used for every
valid state so that re-reconciliation never rewrites an unchanged
condition (spec section 3's no-churn rule). -/
def validCond : Condition := ⟨true, "Valid"⟩

/-- The `TargetPortValid=true` condition. -/
def reservedCond : Condition := ⟨true, "Reserved"⟩

/-- Status written when the effective target port is held by another
Import. -/
def portConflictStatus : ImportStatus :=
  ⟨⟨false, "PortConflict"⟩, ⟨false, "PortConflict"⟩⟩

/-- Status written when the target object is owned by an unrelated actor. -/
def serviceConflictStatus : ImportStatus :=
  ⟨reservedCond, ⟨false, "ConflictingService"⟩⟩

/-- Status written when a merge Import's target object does not pre-exist. -/
def mergeAbsentStatus : ImportStatus :=
  ⟨reservedCond, ⟨false, "NoPreexistingService"⟩⟩

/-- Status written when the object exists, is owned by this Import and the
endpoints are synchronized. -/
def validStatus : ImportStatus := ⟨reservedCond, validCond⟩

/-- Write back an Import's status, suppressing no-op writes: the status is
only rewritten when it actually changes (spec section 3, Condition). -/
def setStatus (st : ClusterState) (id : ImportID) (new : ImportStatus) :
    ClusterState × List Write :=
  match alookup st.imports id with
  | none => (st, [])
  | some r =>
    if r.status = new then (st, [])
    else ({st with imports := aupdate st.imports id ⟨r.spec, new⟩},
      [Write.statusUpdate id])

/-- The service-handling half of reconciliation, entered once the port is
reserved: classify the target object, then create (exclusive mode),
adopt (merge mode), or report a conflict (spec 4.4). -/
def reconcileService (st : ClusterState) (id : ImportID) (rec : ImportRecord) :
    ClusterState × List Write :=
  match classify (alookup st.services (svcKey id)) id rec.spec.merge with
  | Classification.absent =>
    if rec.spec.merge then
      setStatus st id mergeAbsentStatus
    else
      let obj : ServiceObject :=
        ⟨rec.spec.port, some appName, some id.name, some id.ns, st.nextUID⟩
      let st₂ := { st with
        services := aupdate st.services (svcKey id) obj
        nextUID := st.nextUID + 1 }
      let r := setStatus st₂ id validStatus
      (r.1, Write.createService (svcKey id) :: r.2)
  | Classification.ownedByThis => setStatus st id validStatus
  | Classification.foreignConflict => setStatus st id serviceConflictStatus
  | Classification.adoptablyForeign =>
    match alookup st.services (svcKey id) with
    | none => (st, [])
    | some o =>
      let o₂ : ServiceObject :=
        ⟨o.port, some appName, some id.name, some id.ns, o.uid⟩
      let st₂ := {st with services := aupdate st.services (svcKey id) o₂}
      let r := setStatus st₂ id validStatus
      (r.1, Write.updateService (svcKey id) :: r.2)

/-- Modelled from the spec: one full reconciliation of an Import by the
missing reconciler (spec 4.4): reserve the effective target port; on a
conflict set both conditions false and take no further action; on success
classify and handle the target object and write back status.  All errors
are recorded in the Import's own status; nothing is returned to the
caller. -/
def reconcile (derive : ImportID → Nat) (st : ClusterState) (id : ImportID) :
    ClusterState × List Write :=
  match alookup st.imports id with
  | none => (st, [])
  | some rec =>
    match reserve st.reservations (id.ns, effPort derive id rec.spec) id.name with
    | ReserveResult.conflict _ => setStatus st id portConflictStatus
    | ReserveResult.ok tbl =>
      reconcileService {st with reservations := tbl} id rec

/-! ## Event model (spec sections 5 and 6)

Reconciliation is level-triggered: every mutation of an Import or of a
watched collaborator object is an event, and reconciliation of the
affected Import runs serialized with it (single writer per Import).
External actors mutate services directly against the store. -/

/-- An external mutation or a queued reconciliation request. -/
inductive Event where
  | createImport (id : ImportID) (spec : ImportSpec)
  | updateImport (id : ImportID) (spec : ImportSpec)
  | deleteImport (id : ImportID)
  | extCreateService (k : SvcKey) (port : Nat)
      (managedBy importName importNamespace : Option String)
  | extSetLabels (k : SvcKey)
      (managedBy importName importNamespace : Option String)
  | extDeleteService (k : SvcKey)
  | setDataplanes (dps : List (String × List String))
  | requeue (id : ImportID)
deriving Repr

/-- Modelled from the spec: the event loop's handling of one event
(spec 4.4 transitions and 5).  Import create/update/delete runs the
reconciler; update releases the old port reservation exactly when the
effective port changes; delete releases the reservation and deletes an
exclusively-owned object or strips the labels of a merge-adopted one,
never touching a foreign object. -/
def step (derive : ImportID → Nat) (st : ClusterState) (e : Event) :
    ClusterState × List Write :=
  match e with
  | Event.createImport id spec =>
    match alookup st.imports id with
    | some _ => (st, [])
    | none =>
      reconcile derive
        {st with imports := aupdate st.imports id ⟨spec, initStatus⟩} id
  | Event.updateImport id spec =>
    match alookup st.imports id with
    | none => (st, [])
    | some rec =>
      let oldPort := effPort derive id rec.spec
      let newPort := effPort derive id spec
      let tbl := if oldPort = newPort then st.reservations
        else resRelease st.reservations (id.ns, oldPort) id.name
      reconcile derive
        { st with
          imports := aupdate st.imports id ⟨spec, rec.status⟩
          reservations := tbl } id
  | Event.deleteImport id =>
    match alookup st.imports id with
    | none => (st, [])
    | some rec =>
      let tbl := resRelease st.reservations
        (id.ns, effPort derive id rec.spec) id.name
      match alookup st.services (svcKey id) with
      | none =>
        ({st with imports := aremove st.imports id, reservations := tbl}, [])
      | some o =>
        if classify (some o) id rec.spec.merge = Classification.ownedByThis then
          if rec.spec.merge then
            ({ st with
              imports := aremove st.imports id
              reservations := tbl
              services := aupdate st.services (svcKey id)
                ⟨o.port, none, none, none, o.uid⟩ },
              [Write.updateService (svcKey id)])
          else
            ({ st with
              imports := aremove st.imports id
              reservations := tbl
              services := aremove st.services (svcKey id) },
              [Write.deleteService (svcKey id)])
        else
          ({st with imports := aremove st.imports id, reservations := tbl}, [])
  | Event.extCreateService k port mb inm ins =>
    match alookup st.services k with
    | some _ => (st, [])
    | none =>
      ({ st with
        services := aupdate st.services k ⟨port, mb, inm, ins, st.nextUID⟩
        nextUID := st.nextUID + 1 }, [])
  | Event.extSetLabels k mb inm ins =>
    match alookup st.services k with
    | none => (st, [])
    | some o =>
      ({st with services := aupdate st.services k ⟨o.port, mb, inm, ins, o.uid⟩}, [])
  | Event.extDeleteService k =>
    ({st with services := aremove st.services k}, [])
  | Event.setDataplanes dps => ({st with dataplanes := dps}, [])
  | Event.requeue id => reconcile derive st id

/-- Run a sequence of events from a state. -/
def run (derive : ImportID → Nat) (st : ClusterState) (es : List Event) :
    ClusterState :=
  es.foldl (fun s e => (step derive s e).1) st

/-! ## Basic lemmas about the store helpers -/

theorem setStatus_services (st : ClusterState) (id : ImportID) (s : ImportStatus) :
    (setStatus st id s).1.services = st.services := by
  unfold setStatus
  split
  · rfl
  · split <;> rfl

theorem setStatus_reservations (st : ClusterState) (id : ImportID) (s : ImportStatus) :
    (setStatus st id s).1.reservations = st.reservations := by
  unfold setStatus
  split
  · rfl
  · split <;> rfl

theorem setStatus_dataplanes (st : ClusterState) (id : ImportID) (s : ImportStatus) :
    (setStatus st id s).1.dataplanes = st.dataplanes := by
  unfold setStatus
  split
  · rfl
  · split <;> rfl

theorem setStatus_nextUID (st : ClusterState) (id : ImportID) (s : ImportStatus) :
    (setStatus st id s).1.nextUID = st.nextUID := by
  unfold setStatus
  split
  · rfl
  · split <;> rfl

theorem setStatus_imports_ne (st : ClusterState) (id : ImportID) (s : ImportStatus)
    (id' : ImportID) (h : id' ≠ id) :
    alookup (setStatus st id s).1.imports id' = alookup st.imports id' := by
  unfold setStatus
  split
  · rfl
  · split
    · rfl
    · exact alookup_aupdate_ne _ _ _ _ h

theorem setStatus_imports_self (st : ClusterState) (id : ImportID) (s : ImportStatus)
    (r : ImportRecord) (h : alookup st.imports id = some r) :
    alookup (setStatus st id s).1.imports id = some ⟨r.spec, s⟩ := by
  unfold setStatus
  rw [h]
  simp only []
  split
  · rename_i heq
    rw [h]
    cases r
    simp_all
  · simp [alookup_aupdate_self]

theorem setStatus_writes (st : ClusterState) (id : ImportID) (s : ImportStatus) :
    (setStatus st id s).2 = [] ∨ (setStatus st id s).2 = [Write.statusUpdate id] := by
  unfold setStatus
  split
  · exact Or.inl rfl
  · split
    · exact Or.inl rfl
    · exact Or.inr rfl

theorem reserve_cases (tbl : List (ResKey × String)) (k : ResKey) (o : String) :
    (alookup tbl k = none ∧ reserve tbl k o = ReserveResult.ok ((k, o) :: tbl)) ∨
    (alookup tbl k = some o ∧ reserve tbl k o = ReserveResult.ok tbl) ∨
    (∃ m, alookup tbl k = some m ∧ m ≠ o ∧
      reserve tbl k o = ReserveResult.conflict m) := by
  unfold reserve
  cases hl : alookup tbl k with
  | none => exact Or.inl ⟨rfl, rfl⟩
  | some m =>
    by_cases hm : m = o
    · subst hm
      exact Or.inr (Or.inl ⟨rfl, by simp⟩)
    · exact Or.inr (Or.inr ⟨m, rfl, hm, by simp [hm]⟩)

theorem reserve_ok_lookup (tbl : List (ResKey × String)) (k : ResKey) (o : String)
    (tbl' : List (ResKey × String)) (h : reserve tbl k o = ReserveResult.ok tbl') :
    alookup tbl' k = some o := by
  rcases reserve_cases tbl k o with ⟨hl, he⟩ | ⟨hl, he⟩ | ⟨m, hl, hm, he⟩
  · rw [he] at h
    injection h with h'
    subst h'
    simp [alookup]
  · rw [he] at h
    injection h with h'
    subst h'
    exact hl
  · rw [he] at h
    cases h

theorem reserve_ok_preserve (tbl : List (ResKey × String)) (k : ResKey) (o : String)
    (tbl' : List (ResKey × String)) (h : reserve tbl k o = ReserveResult.ok tbl')
    (k' : ResKey) (v : String) (hv : alookup tbl k' = some v) :
    alookup tbl' k' = some v := by
  rcases reserve_cases tbl k o with ⟨hl, he⟩ | ⟨hl, he⟩ | ⟨m, hl, hm, he⟩
  · rw [he] at h
    injection h with h'
    subst h'
    by_cases hk : k = k'
    · subst hk
      rw [hl] at hv
      cases hv
    · simpa [alookup, hk] using hv
  · rw [he] at h
    injection h with h'
    subst h'
    exact hv
  · rw [he] at h
    cases h

theorem reserve_self (tbl : List (ResKey × String)) (k : ResKey) (o : String)
    (h : alookup tbl k = some o) : reserve tbl k o = ReserveResult.ok tbl := by
  unfold reserve
  rw [h]
  simp

theorem resRelease_lookup_ne (tbl : List (ResKey × String)) (k k' : ResKey)
    (o : String) (h : k' ≠ k) :
    alookup (resRelease tbl k o) k' = alookup tbl k' := by
  induction tbl with
  | nil => simp [resRelease]
  | cons e rest ih =>
    obtain ⟨k₀, o₀⟩ := e
    by_cases hc : k₀ = k ∧ o₀ = o
    · have hk : ¬(k = k') := fun hh => h hh.symm
      simp [resRelease, alookup, hc.1, hc.2, hk, ih]
    · by_cases h₁ : k₀ = k'
      · have hne : ¬(k' = k ∧ o₀ = o) := fun hh => h hh.1
        simp [resRelease, alookup, h₁, hne]
      · simp [resRelease, alookup, hc, h₁, ih]

theorem resRelease_lookup_owner_ne (tbl : List (ResKey × String)) (k : ResKey)
    (o m : String) :
    alookup tbl k = some m → m ≠ o →
      alookup (resRelease tbl k o) k = some m := by
  induction tbl with
  | nil => intro h _; simp [alookup] at h
  | cons e rest ih =>
    intro h hm
    obtain ⟨k₀, o₀⟩ := e
    by_cases h₀ : k₀ = k
    · subst h₀
      simp only [alookup, if_pos rfl] at h
      injection h with h'
      subst h'
      simp [resRelease, hm, alookup]
    · simp only [alookup, if_neg h₀] at h
      by_cases hc : k₀ = k ∧ o₀ = o
      · exact absurd hc.1 h₀
      · simp [resRelease, hc, alookup, h₀, ih h hm]

theorem syncEndpoints_empty (sources : List ImportSource)
    (dps : List (String × List String))
    (h : ∀ s ∈ sources, resolveSource dps s = []) :
    syncEndpoints sources dps = [] := by
  unfold syncEndpoints
  induction sources with
  | nil => rfl
  | cons s ss ih =>
    rw [List.foldl_cons, h s (by simp)]
    exact ih (fun x hx => h x (List.mem_cons.mpr (Or.inr hx)))

/-! ## Effect lemmas for the reconciler -/

theorem reconcileService_reservations (st : ClusterState) (id : ImportID)
    (rec : ImportRecord) :
    (reconcileService st id rec).1.reservations = st.reservations := by
  unfold reconcileService
  split
  · split
    · exact setStatus_reservations st id mergeAbsentStatus
    · simp [setStatus_reservations]
  · exact setStatus_reservations st id validStatus
  · exact setStatus_reservations st id serviceConflictStatus
  · split
    · rfl
    · simp [setStatus_reservations]

theorem reconcileService_dataplanes (st : ClusterState) (id : ImportID)
    (rec : ImportRecord) :
    (reconcileService st id rec).1.dataplanes = st.dataplanes := by
  unfold reconcileService
  split
  · split
    · exact setStatus_dataplanes st id mergeAbsentStatus
    · simp [setStatus_dataplanes]
  · exact setStatus_dataplanes st id validStatus
  · exact setStatus_dataplanes st id serviceConflictStatus
  · split
    · rfl
    · simp [setStatus_dataplanes]

theorem reconcileService_imports_ne (st : ClusterState) (id : ImportID)
    (rec : ImportRecord) (id' : ImportID) (h : id' ≠ id) :
    alookup (reconcileService st id rec).1.imports id' = alookup st.imports id' := by
  unfold reconcileService
  split
  · split
    · exact setStatus_imports_ne st id mergeAbsentStatus id' h
    · simp [setStatus_imports_ne _ _ _ _ h]
  · exact setStatus_imports_ne st id validStatus id' h
  · exact setStatus_imports_ne st id serviceConflictStatus id' h
  · split
    · rfl
    · simp [setStatus_imports_ne _ _ _ _ h]

theorem reconcileService_self (st : ClusterState) (id : ImportID)
    (rec rec₀ : ImportRecord) (h : alookup st.imports id = some rec₀) :
    ∃ s, alookup (reconcileService st id rec).1.imports id = some ⟨rec₀.spec, s⟩ := by
  unfold reconcileService
  split
  · split
    · exact ⟨mergeAbsentStatus, setStatus_imports_self st id mergeAbsentStatus rec₀ h⟩
    · exact ⟨validStatus, setStatus_imports_self _ _ _ _ h⟩
  · exact ⟨validStatus, setStatus_imports_self st id validStatus rec₀ h⟩
  · exact ⟨serviceConflictStatus, setStatus_imports_self st id serviceConflictStatus rec₀ h⟩
  · split
    · exact ⟨rec₀.status, by simpa using h⟩
    · exact ⟨validStatus, setStatus_imports_self _ _ _ _ h⟩

theorem reconcileService_writes (st : ClusterState) (id : ImportID)
    (rec : ImportRecord) (w : Write) (hw : w ∈ (reconcileService st id rec).2) :
    w = Write.statusUpdate id ∨ w = Write.createService (svcKey id) ∨
      w = Write.updateService (svcKey id) := by
  unfold reconcileService at hw
  split at hw
  · split at hw
    · rcases setStatus_writes st id mergeAbsentStatus with hh | hh <;>
        rw [hh] at hw <;> simp at hw
      exact Or.inl hw
    · simp only [List.mem_cons] at hw
      rcases hw with hw | hw
      · exact Or.inr (Or.inl hw)
      · rcases setStatus_writes _ id validStatus with hh | hh <;>
          rw [hh] at hw <;> simp at hw
        exact Or.inl hw
  · rcases setStatus_writes st id validStatus with hh | hh <;>
      rw [hh] at hw <;> simp at hw
    exact Or.inl hw
  · rcases setStatus_writes st id serviceConflictStatus with hh | hh <;>
      rw [hh] at hw <;> simp at hw
    exact Or.inl hw
  · split at hw
    · simp at hw
    · simp only [List.mem_cons] at hw
      rcases hw with hw | hw
      · exact Or.inr (Or.inr hw)
      · rcases setStatus_writes _ id validStatus with hh | hh <;>
          rw [hh] at hw <;> simp at hw
        exact Or.inl hw

theorem reconcile_none (derive : ImportID → Nat) (st : ClusterState) (id : ImportID)
    (h : alookup st.imports id = none) : reconcile derive st id = (st, []) := by
  unfold reconcile
  rw [h]

theorem reconcile_imports_ne (derive : ImportID → Nat) (st : ClusterState)
    (id id' : ImportID) (h : id' ≠ id) :
    alookup (reconcile derive st id).1.imports id' = alookup st.imports id' := by
  unfold reconcile
  split
  · rfl
  · split
    · exact setStatus_imports_ne st id portConflictStatus id' h
    · exact reconcileService_imports_ne _ id _ id' h

theorem reconcile_self (derive : ImportID → Nat) (st : ClusterState) (id : ImportID)
    (rec : ImportRecord) (h : alookup st.imports id = some rec) :
    ∃ s, alookup (reconcile derive st id).1.imports id = some ⟨rec.spec, s⟩ := by
  unfold reconcile
  rw [h]
  simp only []
  split
  · exact ⟨portConflictStatus, setStatus_imports_self st id portConflictStatus rec h⟩
  · exact reconcileService_self _ id rec rec (by simpa using h)

theorem reconcile_res_preserve (derive : ImportID → Nat) (st : ClusterState)
    (id : ImportID) (k : ResKey) (v : String)
    (hv : alookup st.reservations k = some v) :
    alookup (reconcile derive st id).1.reservations k = some v := by
  unfold reconcile
  split
  · exact hv
  · split
    · rw [setStatus_reservations]
      exact hv
    · rename_i rec hres
      rw [reconcileService_reservations]
      exact reserve_ok_preserve st.reservations _ id.name _ hres k v hv

theorem reconcile_dataplanes (derive : ImportID → Nat) (st : ClusterState)
    (id : ImportID) :
    (reconcile derive st id).1.dataplanes = st.dataplanes := by
  unfold reconcile
  split
  · rfl
  · split
    · exact setStatus_dataplanes st id portConflictStatus
    · exact reconcileService_dataplanes _ id _

theorem reconcile_writes (derive : ImportID → Nat) (st : ClusterState)
    (id : ImportID) (w : Write) (hw : w ∈ (reconcile derive st id).2) :
    w = Write.statusUpdate id ∨ w = Write.createService (svcKey id) ∨
      w = Write.updateService (svcKey id) := by
  unfold reconcile at hw
  split at hw
  · simp at hw
  · split at hw
    · rcases setStatus_writes st id portConflictStatus with hh | hh <;>
        rw [hh] at hw <;> simp at hw
      exact Or.inl hw
    · exact reconcileService_writes _ id _ w hw

/-- Branch equation: reconciliation of an Import whose effective target
port is reserved by someone else only writes the port-conflict status. -/
theorem reconcile_eq_conflict (derive : ImportID → Nat) (st : ClusterState)
    (id : ImportID) (rec : ImportRecord) (m : String)
    (h : alookup st.imports id = some rec)
    (hres : reserve st.reservations (id.ns, effPort derive id rec.spec) id.name =
      ReserveResult.conflict m) :
    reconcile derive st id = setStatus st id portConflictStatus := by
  unfold reconcile
  simp only [h, hres]

/-- Branch equation: reconciliation with a successful port reservation
proceeds to the service-handling half. -/
theorem reconcile_eq_ok (derive : ImportID → Nat) (st : ClusterState)
    (id : ImportID) (rec : ImportRecord) (tbl : List (ResKey × String))
    (h : alookup st.imports id = some rec)
    (hres : reserve st.reservations (id.ns, effPort derive id rec.spec) id.name =
      ReserveResult.ok tbl) :
    reconcile derive st id = reconcileService {st with reservations := tbl} id rec := by
  unfold reconcile
  simp only [h, hres]

/-- Branch equation: an absent object in merge mode only yields the
no-pre-existing-service status (spec 4.4, merge requires pre-existence). -/
theorem reconcileService_eq_absent_merge (st : ClusterState) (id : ImportID)
    (rec : ImportRecord) (hsvc : alookup st.services (svcKey id) = none)
    (hm : rec.spec.merge = true) :
    reconcileService st id rec = setStatus st id mergeAbsentStatus := by
  unfold reconcileService
  simp only [hsvc, classify, hm, if_pos]

/-- Branch equation: an absent object in exclusive mode is created with
ownership labels and a fresh uid, and the valid status is written. -/
theorem reconcileService_eq_absent_exclusive (st : ClusterState) (id : ImportID)
    (rec : ImportRecord) (hsvc : alookup st.services (svcKey id) = none)
    (hm : rec.spec.merge = false) :
    reconcileService st id rec =
      ((setStatus { st with
          services := aupdate st.services (svcKey id)
            ⟨rec.spec.port, some appName, some id.name, some id.ns, st.nextUID⟩
          nextUID := st.nextUID + 1 } id validStatus).1,
        Write.createService (svcKey id) ::
          (setStatus { st with
            services := aupdate st.services (svcKey id)
              ⟨rec.spec.port, some appName, some id.name, some id.ns, st.nextUID⟩
            nextUID := st.nextUID + 1 } id validStatus).2) := by
  unfold reconcileService
  simp only [hsvc, classify, hm]
  simp

/-- Branch equation: an object owned by this Import is left untouched and
the valid status is written. -/
theorem reconcileService_eq_owned (st : ClusterState) (id : ImportID)
    (rec : ImportRecord) (o : ServiceObject)
    (hsvc : alookup st.services (svcKey id) = some o)
    (hmb : o.managedBy = some appName)
    (hn : o.importName = some id.name) (hns : o.importNamespace = some id.ns) :
    reconcileService st id rec = setStatus st id validStatus := by
  unfold reconcileService
  simp only [hsvc, classify, hmb, hn, hns, and_self, if_pos]

/-- Branch equation: an object carrying our marker but another owner's
labels is a foreign conflict; nothing but the status is written. -/
theorem reconcileService_eq_foreign_owner (st : ClusterState) (id : ImportID)
    (rec : ImportRecord) (o : ServiceObject)
    (hsvc : alookup st.services (svcKey id) = some o)
    (hmb : o.managedBy = some appName)
    (hno : ¬(o.importName = some id.name ∧ o.importNamespace = some id.ns)) :
    reconcileService st id rec = setStatus st id serviceConflictStatus := by
  unfold reconcileService
  simp only [hsvc, classify, hmb]
  simp [hno]

/-- Branch equation: an object managed by a different owner is foreign in
every mode (the never-mutate invariant); only the status is written. -/
theorem reconcileService_eq_foreign_managed (st : ClusterState) (id : ImportID)
    (rec : ImportRecord) (o : ServiceObject) (m : String)
    (hsvc : alookup st.services (svcKey id) = some o)
    (hmb : o.managedBy = some m) (hm : m ≠ appName) :
    reconcileService st id rec = setStatus st id serviceConflictStatus := by
  unfold reconcileService
  simp only [hsvc, classify, hmb]
  simp [hm]

/-- Branch equation: an unlabelled object in exclusive mode is a foreign
conflict (exclusive mode must not silently adopt). -/
theorem reconcileService_eq_unlabelled_exclusive (st : ClusterState) (id : ImportID)
    (rec : ImportRecord) (o : ServiceObject)
    (hsvc : alookup st.services (svcKey id) = some o)
    (hmb : o.managedBy = none) (hm : rec.spec.merge = false) :
    reconcileService st id rec = setStatus st id serviceConflictStatus := by
  unfold reconcileService
  simp only [hsvc, classify, hmb, hm]
  simp [appName]

/-- Branch equation: an unlabelled pre-existing object in merge mode is
adopted: ownership labels are stamped, its uid (identity) is kept, and the
valid status is written. -/
theorem reconcileService_eq_adopt (st : ClusterState) (id : ImportID)
    (rec : ImportRecord) (o : ServiceObject)
    (hsvc : alookup st.services (svcKey id) = some o)
    (hmb : o.managedBy = none) (hm : rec.spec.merge = true) :
    reconcileService st id rec =
      ((setStatus { st with
          services := aupdate st.services (svcKey id)
            ⟨o.port, some appName, some id.name, some id.ns, o.uid⟩ }
          id validStatus).1,
        Write.updateService (svcKey id) ::
          (setStatus { st with
            services := aupdate st.services (svcKey id)
              ⟨o.port, some appName, some id.name, some id.ns, o.uid⟩ }
            id validStatus).2) := by
  unfold reconcileService
  simp only [hsvc, classify, hmb, hm]
  simp [appName]

theorem reconcile_tpv_reserved (derive : ImportID → Nat) (st : ClusterState)
    (id : ImportID) (rec : ImportRecord) (h : alookup st.imports id = some rec)
    (rec' : ImportRecord)
    (h' : alookup (reconcile derive st id).1.imports id = some rec')
    (htpv : rec'.status.targetPortValid.value = true) :
    alookup (reconcile derive st id).1.reservations
      (id.ns, effPort derive id rec'.spec) = some id.name := by
  cases hres : reserve st.reservations (id.ns, effPort derive id rec.spec) id.name with
  | conflict m =>
    rw [reconcile_eq_conflict derive st id rec m h hres] at h'
    rw [setStatus_imports_self st id portConflictStatus rec h] at h'
    injection h' with h''
    rw [← h''] at htpv
    simp [portConflictStatus] at htpv
  | ok tbl =>
    rw [reconcile_eq_ok derive st id rec tbl h hres] at h' ⊢
    obtain ⟨s, hs⟩ := reconcileService_self
      {st with reservations := tbl} id rec rec h
    rw [hs] at h'
    injection h' with h''
    rw [reconcileService_reservations]
    have hspec : rec'.spec = rec.spec := by rw [← h'']
    rw [hspec]
    exact reserve_ok_lookup st.reservations _ id.name tbl hres

/-! ## The port-reservation invariant (spec sections 3 and 4.1) -/

theorem release_other (tbl : List (ResKey × String)) (kRel : ResKey) (nRel : String)
    (k : ResKey) (n : String) (h : alookup tbl k = some n)
    (hne : k ≠ kRel ∨ n ≠ nRel) :
    alookup (resRelease tbl kRel nRel) k = some n := by
  by_cases hk : k = kRel
  · subst hk
    rcases hne with hne | hne
    · exact absurd rfl hne
    · exact resRelease_lookup_owner_ne tbl k nRel n h hne
  · rw [resRelease_lookup_ne tbl kRel k nRel hk]
    exact h

theorem importID_name_ne (id id' : ImportID) (hne : id' ≠ id) (hns : id'.ns = id.ns) :
    id'.name ≠ id.name := by
  intro hname
  apply hne
  cases id
  cases id'
  simp_all

/-- The invariant behind target-port exclusivity: every Import whose
`TargetPortValid` condition holds owns the reservation of its effective
target port in its namespace. -/
def PortInv (derive : ImportID → Nat) (st : ClusterState) : Prop :=
  ∀ id rec, alookup st.imports id = some rec →
    rec.status.targetPortValid.value = true →
    alookup st.reservations (id.ns, effPort derive id rec.spec) = some id.name

theorem portInv_init (derive : ImportID → Nat) : PortInv derive initState := by
  intro id rec h _
  simp [initState, alookup] at h

theorem portInv_reconcile (derive : ImportID → Nat) (st : ClusterState) (id : ImportID)
    (hOther : ∀ id' rec', id' ≠ id → alookup st.imports id' = some rec' →
      rec'.status.targetPortValid.value = true →
      alookup st.reservations (id'.ns, effPort derive id' rec'.spec) = some id'.name) :
    PortInv derive (reconcile derive st id).1 := by
  intro id' rec' h' htpv
  by_cases hid : id' = id
  · subst hid
    cases hrec : alookup st.imports id' with
    | none =>
      rw [reconcile_none derive st id' hrec] at h'
      exact absurd h' (by simp [hrec])
    | some rec => exact reconcile_tpv_reserved derive st id' rec hrec rec' h' htpv
  · rw [reconcile_imports_ne derive st id id' hid] at h'
    exact reconcile_res_preserve derive st id _ _ (hOther id' rec' hid h' htpv)

theorem portInv_step (derive : ImportID → Nat) (st : ClusterState) (e : Event)
    (hInv : PortInv derive st) : PortInv derive (step derive st e).1 := by
  cases e with
  | createImport id spec =>
    unfold step
    cases hc : alookup st.imports id with
    | some r =>
      simp only [hc]
      exact hInv
    | none =>
      simp only [hc]
      refine portInv_reconcile derive _ id ?_
      intro id' rec' hid h' htpv
      replace h' : alookup (aupdate st.imports id ⟨spec, initStatus⟩) id' = some rec' := h'
      rw [alookup_aupdate_ne _ _ _ _ hid] at h'
      exact hInv id' rec' h' htpv
  | updateImport id spec =>
    unfold step
    cases hc : alookup st.imports id with
    | none =>
      simp only [hc]
      exact hInv
    | some rec =>
      simp only [hc]
      refine portInv_reconcile derive _ id ?_
      intro id' rec' hid h' htpv
      replace h' : alookup (aupdate st.imports id ⟨spec, rec.status⟩) id' = some rec' := h'
      rw [alookup_aupdate_ne _ _ _ _ hid] at h'
      have hres := hInv id' rec' h' htpv
      show alookup (if effPort derive id rec.spec = effPort derive id spec
          then st.reservations
          else resRelease st.reservations (id.ns, effPort derive id rec.spec) id.name)
        (id'.ns, effPort derive id' rec'.spec) = some id'.name
      split
      · exact hres
      · refine release_other _ _ _ _ _ hres ?_
        by_cases hk : (id'.ns, effPort derive id' rec'.spec) =
            (id.ns, effPort derive id rec.spec)
        · exact Or.inr (importID_name_ne id id' hid (congrArg Prod.fst hk))
        · exact Or.inl hk
  | deleteImport id =>
    unfold step
    cases hc : alookup st.imports id with
    | none =>
      simp only [hc]
      exact hInv
    | some rec =>
      simp only [hc]
      have hdel : ∀ id' rec', alookup (aremove st.imports id) id' = some rec' →
          rec'.status.targetPortValid.value = true →
          alookup (resRelease st.reservations
            (id.ns, effPort derive id rec.spec) id.name)
            (id'.ns, effPort derive id' rec'.spec) = some id'.name := by
        intro id' rec' h' htpv
        by_cases hid : id' = id
        · subst hid
          rw [alookup_aremove_self] at h'
          cases h'
        · rw [alookup_aremove_ne _ _ _ hid] at h'
          refine release_other _ _ _ _ _ (hInv id' rec' h' htpv) ?_
          by_cases hk : (id'.ns, effPort derive id' rec'.spec) =
              (id.ns, effPort derive id rec.spec)
          · exact Or.inr (importID_name_ne id id' hid (congrArg Prod.fst hk))
          · exact Or.inl hk
      split
      · intro id' rec' h' htpv
        exact hdel id' rec' h' htpv
      · split
        · split
          · intro id' rec' h' htpv
            exact hdel id' rec' h' htpv
          · intro id' rec' h' htpv
            exact hdel id' rec' h' htpv
        · intro id' rec' h' htpv
          exact hdel id' rec' h' htpv
  | extCreateService k port mb inm ins =>
    unfold step
    cases hc : alookup st.services k with
    | some o =>
      simp only [hc]
      exact hInv
    | none =>
      simp only [hc]
      intro id' rec' h' htpv
      exact hInv id' rec' h' htpv
  | extSetLabels k mb inm ins =>
    unfold step
    cases hc : alookup st.services k with
    | none =>
      simp only [hc]
      exact hInv
    | some o =>
      simp only [hc]
      intro id' rec' h' htpv
      exact hInv id' rec' h' htpv
  | extDeleteService k =>
    intro id' rec' h' htpv
    exact hInv id' rec' h' htpv
  | setDataplanes dps =>
    intro id' rec' h' htpv
    exact hInv id' rec' h' htpv
  | requeue id =>
    refine portInv_reconcile derive st id ?_
    intro id' rec' _ h' htpv
    exact hInv id' rec' h' htpv

theorem portInv_run (derive : ImportID → Nat) (st : ClusterState) (es : List Event)
    (hInv : PortInv derive st) : PortInv derive (run derive st es) := by
  induction es generalizing st with
  | nil => exact hInv
  | cons e es ih =>
    rw [run, List.foldl_cons]
    exact ih (step derive st e).1 (portInv_step derive st e hInv)

theorem portInv_at_most_one (derive : ImportID → Nat) (st : ClusterState)
    (h : PortInv derive st) (A B : ImportID) (recA recB : ImportRecord)
    (hA : alookup st.imports A = some recA) (hB : alookup st.imports B = some recB)
    (hne : A ≠ B) (hns : A.ns = B.ns)
    (hport : effPort derive A recA.spec = effPort derive B recB.spec) :
    ¬(recA.status.targetPortValid.value = true ∧
      recB.status.targetPortValid.value = true) := by
  rintro ⟨hta, htb⟩
  have h₁ := h A recA hA hta
  have h₂ := h B recB hB htb
  rw [hns, hport, h₂] at h₁
  injection h₁ with h₃
  apply hne
  cases A
  cases B
  simp_all

/-! ## Claim C1: target-port exclusivity with release -/

/-- Port derivation used in the concrete scenarios (the imports there carry
explicit target ports, so the derived value is never consulted). -/
def noDerive : ImportID → Nat := fun _ => 0

/-- First Import of the conflicting-target-port scenario
(`TestImportConflictingTargetPort`). -/
def impOne : ImportID := ⟨"ns", "imp1"⟩

/-- Second Import of the conflicting-target-port scenario. -/
def impTwo : ImportID := ⟨"ns", "imp2"⟩

/-- Spec with port 80 and an explicit target port, as in the tests. -/
def portSpec (tp : Nat) : ImportSpec := ⟨80, some tp, false, []⟩

/-- Create two Imports with the same explicit target port 1234. -/
def conflictTrace : List Event :=
  [Event.createImport impOne (portSpec 1234),
    Event.createImport impTwo (portSpec 1234)]

/-- ... then delete the holder and requeue the loser
(`TestImportDelete`-style release). -/
def releaseTrace : List Event :=
  conflictTrace ++ [Event.deleteImport impOne, Event.requeue impTwo]

/-- ... or update the loser's target port to a free port
(`TestImportConflictingTargetPort`-style release). -/
def updateAwayTrace : List Event :=
  conflictTrace ++ [Event.updateImport impTwo (portSpec 1235)]

/-- C1: target-port exclusivity with release.  (1) In every state reachable
by events from the empty cluster, no two distinct Imports of one namespace
with equal effective target ports both have `TargetPortValid=true`.
(2) Reconciling an Import whose port is reserved by another owner writes
only the port-conflict status (`TargetPortValid=false`,
`ServiceValid=false`) and does not create its service object.  (3) In the
concrete two-Import scenario the second Import is invalid and without a
service; deleting the first Import (or updating the second's port away)
makes the second Import reach `TargetPortValid=true` and
`ServiceValid=true` without being recreated. -/
theorem import_target_port_exclusivity :
    (∀ derive es A B recA recB,
      alookup (run derive initState es).imports A = some recA →
      alookup (run derive initState es).imports B = some recB →
      A ≠ B → A.ns = B.ns →
      effPort derive A recA.spec = effPort derive B recB.spec →
      ¬(recA.status.targetPortValid.value = true ∧
        recB.status.targetPortValid.value = true))
    ∧ (∀ derive st id rec m,
      alookup st.imports id = some rec →
      alookup st.reservations (id.ns, effPort derive id rec.spec) = some m →
      m ≠ id.name →
      alookup (reconcile derive st id).1.imports id =
        some ⟨rec.spec, portConflictStatus⟩ ∧
      (reconcile derive st id).1.services = st.services ∧
      ∀ w ∈ (reconcile derive st id).2, w = Write.statusUpdate id)
    ∧ ((alookup (run noDerive initState conflictTrace).imports impTwo).map
        (fun r => (r.status.targetPortValid.value, r.status.serviceValid.value)) =
        some (false, false)
      ∧ alookup (run noDerive initState conflictTrace).services (svcKey impTwo) = none)
    ∧ (alookup (run noDerive initState releaseTrace).imports impTwo).map
        (fun r => (r.status.targetPortValid.value, r.status.serviceValid.value)) =
        some (true, true)
    ∧ (alookup (run noDerive initState updateAwayTrace).imports impTwo).map
        (fun r => (r.status.targetPortValid.value, r.status.serviceValid.value)) =
        some (true, true) := by
  refine ⟨?_, ?_, by decide, by decide, by decide⟩
  · intro derive es A B recA recB hA hB hne hns hport
    exact portInv_at_most_one derive _
      (portInv_run derive initState es (portInv_init derive))
      A B recA recB hA hB hne hns hport
  · intro derive st id rec m h hlook hm
    have hres : reserve st.reservations (id.ns, effPort derive id rec.spec) id.name =
        ReserveResult.conflict m := by
      unfold reserve
      rw [hlook]
      simp [hm]
    rw [reconcile_eq_conflict derive st id rec m h hres]
    refine ⟨setStatus_imports_self st id portConflictStatus rec h,
      setStatus_services st id portConflictStatus, ?_⟩
    intro w hw
    rcases setStatus_writes st id portConflictStatus with hh | hh <;>
      rw [hh] at hw <;> simp at hw
    exact hw

theorem import_target_port_exclusivity_witness :
    ¬((ImportRecord.mk (portSpec 1234) validStatus).status.targetPortValid.value = true ∧
      (ImportRecord.mk (portSpec 1234) portConflictStatus).status.targetPortValid.value = true)
    ∧ (alookup (reconcile noDerive (run noDerive initState conflictTrace) impTwo).1.imports
        impTwo = some ⟨portSpec 1234, portConflictStatus⟩ ∧
      (reconcile noDerive (run noDerive initState conflictTrace) impTwo).1.services =
        (run noDerive initState conflictTrace).services ∧
      ∀ w ∈ (reconcile noDerive (run noDerive initState conflictTrace) impTwo).2,
        w = Write.statusUpdate impTwo) :=
  ⟨import_target_port_exclusivity.1 noDerive conflictTrace impOne impTwo
      ⟨portSpec 1234, validStatus⟩ ⟨portSpec 1234, portConflictStatus⟩
      (by decide) (by decide) (by decide) (by decide) (by decide),
    import_target_port_exclusivity.2.1 noDerive
      (run noDerive initState conflictTrace) impTwo
      ⟨portSpec 1234, portConflictStatus⟩ "imp1"
      (by decide) (by decide) (by decide)⟩

/-! ## Idempotence machinery -/

theorem setStatus_eq_same (st : ClusterState) (id : ImportID) (s : ImportStatus)
    (r : ImportRecord) (h : alookup st.imports id = some r) (heq : r.status = s) :
    setStatus st id s = (st, []) := by
  unfold setStatus
  rw [h]
  simp [heq]

theorem classify_absent_iff (obj : Option ServiceObject) (id : ImportID) (m : Bool) :
    classify obj id m = Classification.absent ↔ obj = none := by
  cases obj with
  | none => simp [classify]
  | some o =>
    simp only [classify]
    constructor
    · intro h
      split at h <;> split at h <;> simp_all
    · intro h
      cases h

theorem classify_adopt_elim (obj : Option ServiceObject) (id : ImportID) (m : Bool)
    (h : classify obj id m = Classification.adoptablyForeign) :
    ∃ o, obj = some o ∧ o.managedBy = none ∧ m = true := by
  cases obj with
  | none => simp [classify] at h
  | some o =>
    refine ⟨o, rfl, ?_⟩
    simp only [classify] at h
    split at h
    · split at h <;> cases h
    · split at h
      · rename_i hcond
        exact ⟨hcond.2, hcond.1⟩
      · cases h

theorem reconcileService_eq_of_classify_absent_merge (st : ClusterState)
    (id : ImportID) (rec : ImportRecord)
    (hcl : classify (alookup st.services (svcKey id)) id rec.spec.merge =
      Classification.absent) (hm : rec.spec.merge = true) :
    reconcileService st id rec = setStatus st id mergeAbsentStatus := by
  unfold reconcileService
  simp only [hcl]
  rw [if_pos hm]

theorem reconcileService_eq_of_classify_owned (st : ClusterState)
    (id : ImportID) (rec : ImportRecord)
    (hcl : classify (alookup st.services (svcKey id)) id rec.spec.merge =
      Classification.ownedByThis) :
    reconcileService st id rec = setStatus st id validStatus := by
  unfold reconcileService
  simp only [hcl]

theorem reconcileService_eq_of_classify_foreign (st : ClusterState)
    (id : ImportID) (rec : ImportRecord)
    (hcl : classify (alookup st.services (svcKey id)) id rec.spec.merge =
      Classification.foreignConflict) :
    reconcileService st id rec = setStatus st id serviceConflictStatus := by
  unfold reconcileService
  simp only [hcl]

/-- A reconciliation run from a state already agreeing with the
classification outcome is a no-op: same state, zero writes. -/
theorem reconcile_noop (derive : ImportID → Nat) (S : ClusterState) (id : ImportID)
    (rec' : ImportRecord) (himp : alookup S.imports id = some rec')
    (hresv : alookup S.reservations (id.ns, effPort derive id rec'.spec) =
      some id.name)
    (hmatch :
      (classify (alookup S.services (svcKey id)) id rec'.spec.merge =
          Classification.absent ∧ rec'.spec.merge = true ∧
          rec'.status = mergeAbsentStatus) ∨
      (classify (alookup S.services (svcKey id)) id rec'.spec.merge =
          Classification.ownedByThis ∧ rec'.status = validStatus) ∨
      (classify (alookup S.services (svcKey id)) id rec'.spec.merge =
          Classification.foreignConflict ∧ rec'.status = serviceConflictStatus)) :
    reconcile derive S id = (S, []) := by
  have hres : reserve S.reservations (id.ns, effPort derive id rec'.spec) id.name =
      ReserveResult.ok S.reservations := reserve_self _ _ _ hresv
  rw [reconcile_eq_ok derive S id rec' S.reservations himp hres]
  show reconcileService S id rec' = (S, [])
  rcases hmatch with ⟨hcl, hm, hst⟩ | ⟨hcl, hst⟩ | ⟨hcl, hst⟩
  · rw [reconcileService_eq_of_classify_absent_merge S id rec' hcl hm]
    exact setStatus_eq_same S id mergeAbsentStatus rec' himp hst
  · rw [reconcileService_eq_of_classify_owned S id rec' hcl]
    exact setStatus_eq_same S id validStatus rec' himp hst
  · rw [reconcileService_eq_of_classify_foreign S id rec' hcl]
    exact setStatus_eq_same S id serviceConflictStatus rec' himp hst

/-- C6: reconciliation idempotence.  Re-running the full reconciliation of
any Import immediately after a completed reconciliation, with no
intervening external change, leaves the state untouched and performs zero
writes: no status update and no object create, update or delete. -/
theorem import_reconciliation_idempotence (derive : ImportID → Nat)
    (st : ClusterState) (id : ImportID) :
    reconcile derive (reconcile derive st id).1 id = ((reconcile derive st id).1, []) := by
  cases h : alookup st.imports id with
  | none =>
    rw [reconcile_none derive st id h]
    exact reconcile_none derive st id h
  | some rec =>
    cases hres : reserve st.reservations (id.ns, effPort derive id rec.spec) id.name with
    | conflict m =>
      rw [reconcile_eq_conflict derive st id rec m h hres]
      have h' := setStatus_imports_self st id portConflictStatus rec h
      have hres' : reserve (setStatus st id portConflictStatus).1.reservations
          (id.ns, effPort derive id
            (ImportRecord.mk rec.spec portConflictStatus).spec) id.name =
          ReserveResult.conflict m := by
        rw [setStatus_reservations]
        exact hres
      rw [reconcile_eq_conflict derive _ id ⟨rec.spec, portConflictStatus⟩ m h' hres']
      exact setStatus_eq_same _ id portConflictStatus ⟨rec.spec, portConflictStatus⟩ h' rfl
    | ok tbl =>
      rw [reconcile_eq_ok derive st id rec tbl h hres]
      have htbl : alookup tbl (id.ns, effPort derive id rec.spec) = some id.name :=
        reserve_ok_lookup st.reservations _ id.name tbl hres
      cases hcl : classify (alookup st.services (svcKey id)) id rec.spec.merge with
      | absent =>
        by_cases hm : rec.spec.merge = true
        · rw [reconcileService_eq_of_classify_absent_merge { st with reservations := tbl } id rec hcl hm]
          refine reconcile_noop derive _ id ⟨rec.spec, mergeAbsentStatus⟩
            (setStatus_imports_self _ id mergeAbsentStatus rec h) ?_ ?_
          · rw [setStatus_reservations]
            exact htbl
          · left
            refine ⟨?_, hm, rfl⟩
            rw [setStatus_services]
            exact hcl
        · replace hm : rec.spec.merge = false := by simpa using hm
          have hsvc : alookup st.services (svcKey id) = none :=
            (classify_absent_iff _ _ _).mp hcl
          rw [reconcileService_eq_absent_exclusive { st with reservations := tbl } id rec hsvc hm]
          refine reconcile_noop derive _ id ⟨rec.spec, validStatus⟩
            (setStatus_imports_self _ id validStatus rec h) ?_ ?_
          · rw [setStatus_reservations]
            exact htbl
          · right
            left
            refine ⟨?_, rfl⟩
            rw [setStatus_services]
            simp [classify, alookup_aupdate_self]
      | ownedByThis =>
        rw [reconcileService_eq_of_classify_owned { st with reservations := tbl } id rec hcl]
        refine reconcile_noop derive _ id ⟨rec.spec, validStatus⟩
          (setStatus_imports_self _ id validStatus rec h) ?_ ?_
        · rw [setStatus_reservations]
          exact htbl
        · right
          left
          refine ⟨?_, rfl⟩
          rw [setStatus_services]
          exact hcl
      | foreignConflict =>
        rw [reconcileService_eq_of_classify_foreign { st with reservations := tbl } id rec hcl]
        refine reconcile_noop derive _ id ⟨rec.spec, serviceConflictStatus⟩
          (setStatus_imports_self _ id serviceConflictStatus rec h) ?_ ?_
        · rw [setStatus_reservations]
          exact htbl
        · right
          right
          refine ⟨?_, rfl⟩
          rw [setStatus_services]
          exact hcl
      | adoptablyForeign =>
        obtain ⟨o, hsvc, hmb, hm⟩ := classify_adopt_elim _ _ _ hcl
        rw [reconcileService_eq_adopt { st with reservations := tbl } id rec o hsvc hmb hm]
        refine reconcile_noop derive _ id ⟨rec.spec, validStatus⟩
          (setStatus_imports_self _ id validStatus rec h) ?_ ?_
        · rw [setStatus_reservations]
          exact htbl
        · right
          left
          refine ⟨?_, rfl⟩
          rw [setStatus_services]
          simp [classify, alookup_aupdate_self]

/-! ## Claims C3-C5 and C7: service handling -/

theorem reserve_free_or_own (tbl : List (ResKey × String)) (k : ResKey) (o : String)
    (h : alookup tbl k = none ∨ alookup tbl k = some o) :
    ∃ tbl', reserve tbl k o = ReserveResult.ok tbl' := by
  rcases h with h | h
  · refine ⟨(k, o) :: tbl, ?_⟩
    unfold reserve
    rw [h]
  · exact ⟨tbl, reserve_self tbl k o h⟩

/-- The merge Import of the spec's merge scenario (`TestImportMerge`). -/
def impMerge : ImportID := ⟨"ns", "imported"⟩

/-- Merge-mode spec with one source, as in `TestImportMerge`. -/
def mergeSpec : ImportSpec := ⟨80, none, true, [⟨"peer1", "echo", "ns"⟩]⟩

/-- Create a merge Import whose target service does not pre-exist. -/
def mergeCreateTrace : List Event := [Event.createImport impMerge mergeSpec]

/-- ... then an external actor creates the target service and the Import is
requeued. -/
def mergeAdoptTrace : List Event :=
  mergeCreateTrace ++
    [Event.extCreateService (svcKey impMerge) 80 none none none,
      Event.requeue impMerge]

/-- C3: merge-mode adoption, never creation.  (1) Reconciling a merge
Import with no pre-existing target object reports `ServiceValid=false`,
leaves the object absent and performs no create.  (2) Once the object
exists (unlabelled, externally created), reconciliation adopts it — the
object keeps its uid, gains our ownership labels — sets
`ServiceValid=true`, and still performs no create.  (3) The concrete merge
scenario behaves accordingly, the adopted object keeping the uid assigned
at its external creation. -/
theorem import_merge_adoption :
    (∀ derive st id rec,
      alookup st.imports id = some rec →
      rec.spec.merge = true →
      alookup st.services (svcKey id) = none →
      (alookup st.reservations (id.ns, effPort derive id rec.spec) = none ∨
        alookup st.reservations (id.ns, effPort derive id rec.spec) = some id.name) →
      alookup (reconcile derive st id).1.imports id =
        some ⟨rec.spec, mergeAbsentStatus⟩ ∧
      alookup (reconcile derive st id).1.services (svcKey id) = none ∧
      ∀ w ∈ (reconcile derive st id).2, w = Write.statusUpdate id)
    ∧ (∀ derive st id rec o,
      alookup st.imports id = some rec →
      rec.spec.merge = true →
      alookup st.services (svcKey id) = some o →
      o.managedBy = none →
      (alookup st.reservations (id.ns, effPort derive id rec.spec) = none ∨
        alookup st.reservations (id.ns, effPort derive id rec.spec) = some id.name) →
      alookup (reconcile derive st id).1.imports id = some ⟨rec.spec, validStatus⟩ ∧
      alookup (reconcile derive st id).1.services (svcKey id) =
        some ⟨o.port, some appName, some id.name, some id.ns, o.uid⟩ ∧
      ∀ w ∈ (reconcile derive st id).2,
        w = Write.updateService (svcKey id) ∨ w = Write.statusUpdate id)
    ∧ ((alookup (run noDerive initState mergeCreateTrace).imports impMerge).map
        (fun r => r.status.serviceValid.value) = some false
      ∧ alookup (run noDerive initState mergeCreateTrace).services (svcKey impMerge) =
        none)
    ∧ ((alookup (run noDerive initState mergeAdoptTrace).imports impMerge).map
        (fun r => r.status.serviceValid.value) = some true
      ∧ alookup (run noDerive initState mergeAdoptTrace).services (svcKey impMerge) =
        some ⟨80, some appName, some "imported", some "ns", 0⟩) := by
  refine ⟨?_, ?_, by decide, by decide⟩
  · intro derive st id rec h hm hsvc hfree
    obtain ⟨tbl, hres⟩ := reserve_free_or_own _ _ _ hfree
    rw [reconcile_eq_ok derive st id rec tbl h hres]
    rw [reconcileService_eq_absent_merge { st with reservations := tbl } id rec hsvc hm]
    refine ⟨setStatus_imports_self _ id mergeAbsentStatus rec h, ?_, ?_⟩
    · rw [setStatus_services]
      exact hsvc
    · intro w hw
      rcases setStatus_writes _ id mergeAbsentStatus with hh | hh <;>
        rw [hh] at hw <;> simp at hw
      exact hw
  · intro derive st id rec o h hm hsvc hmb hfree
    obtain ⟨tbl, hres⟩ := reserve_free_or_own _ _ _ hfree
    rw [reconcile_eq_ok derive st id rec tbl h hres]
    rw [reconcileService_eq_adopt { st with reservations := tbl } id rec o hsvc hmb hm]
    refine ⟨setStatus_imports_self _ id validStatus rec h, ?_, ?_⟩
    · rw [setStatus_services]
      exact alookup_aupdate_self _ _ _
    · intro w hw
      simp only [List.mem_cons] at hw
      rcases hw with hw | hw
      · exact Or.inl hw
      · rcases setStatus_writes _ id validStatus with hh | hh <;>
          rw [hh] at hw <;> simp at hw
        exact Or.inr hw

theorem import_merge_adoption_witness :
    (alookup (reconcile noDerive (run noDerive initState mergeCreateTrace) impMerge).1.imports
        impMerge = some ⟨mergeSpec, mergeAbsentStatus⟩ ∧
      alookup (reconcile noDerive (run noDerive initState mergeCreateTrace) impMerge).1.services
        (svcKey impMerge) = none ∧
      ∀ w ∈ (reconcile noDerive (run noDerive initState mergeCreateTrace) impMerge).2,
        w = Write.statusUpdate impMerge)
    ∧ (alookup (reconcile noDerive
        (run noDerive initState (mergeCreateTrace ++
          [Event.extCreateService (svcKey impMerge) 80 none none none])) impMerge).1.imports
        impMerge = some ⟨mergeSpec, validStatus⟩ ∧
      alookup (reconcile noDerive
        (run noDerive initState (mergeCreateTrace ++
          [Event.extCreateService (svcKey impMerge) 80 none none none])) impMerge).1.services
        (svcKey impMerge) = some ⟨80, some appName, some "imported", some "ns", 0⟩ ∧
      ∀ w ∈ (reconcile noDerive
        (run noDerive initState (mergeCreateTrace ++
          [Event.extCreateService (svcKey impMerge) 80 none none none])) impMerge).2,
        w = Write.updateService (svcKey impMerge) ∨ w = Write.statusUpdate impMerge) :=
  ⟨import_merge_adoption.1 noDerive (run noDerive initState mergeCreateTrace) impMerge
      ⟨mergeSpec, mergeAbsentStatus⟩ (by decide) (by decide) (by decide) (by decide),
    import_merge_adoption.2.1 noDerive
      (run noDerive initState (mergeCreateTrace ++
        [Event.extCreateService (svcKey impMerge) 80 none none none])) impMerge
      ⟨mergeSpec, mergeAbsentStatus⟩ ⟨80, none, none, none, 0⟩
      (by decide) (by decide) (by decide) (by decide) (by decide)⟩

/-- Create an exclusive Import, then an external actor deletes its managed
service, and the Import is requeued (`TestImportConflictingService`'s
recreation step). -/
def recreateTrace : List Event :=
  [Event.createImport impOne (portSpec 1234),
    Event.extDeleteService (svcKey impOne),
    Event.requeue impOne]

/-- C4: recreation of exclusively-owned objects.  Reconciling an exclusive
(non-merge) Import whose managed object is gone recreates the object —
with ownership labels and a fresh uid — emits a create write, and restores
the valid status; the concrete externally-deleted scenario ends with the
service present and `ServiceValid=true`. -/
theorem import_exclusive_recreation :
    (∀ derive st id rec,
      alookup st.imports id = some rec →
      rec.spec.merge = false →
      alookup st.services (svcKey id) = none →
      (alookup st.reservations (id.ns, effPort derive id rec.spec) = none ∨
        alookup st.reservations (id.ns, effPort derive id rec.spec) = some id.name) →
      alookup (reconcile derive st id).1.imports id = some ⟨rec.spec, validStatus⟩ ∧
      alookup (reconcile derive st id).1.services (svcKey id) =
        some ⟨rec.spec.port, some appName, some id.name, some id.ns, st.nextUID⟩ ∧
      Write.createService (svcKey id) ∈ (reconcile derive st id).2)
    ∧ ((alookup (run noDerive initState recreateTrace).imports impOne).map
        (fun r => (r.status.targetPortValid.value, r.status.serviceValid.value)) =
        some (true, true)
      ∧ alookup (run noDerive initState recreateTrace).services (svcKey impOne) =
        some ⟨80, some appName, some "imp1", some "ns", 1⟩) := by
  refine ⟨?_, by decide⟩
  intro derive st id rec h hm hsvc hfree
  obtain ⟨tbl, hres⟩ := reserve_free_or_own _ _ _ hfree
  rw [reconcile_eq_ok derive st id rec tbl h hres]
  rw [reconcileService_eq_absent_exclusive { st with reservations := tbl } id rec hsvc hm]
  refine ⟨setStatus_imports_self _ id validStatus rec h, ?_, ?_⟩
  · rw [setStatus_services]
    exact alookup_aupdate_self _ _ _
  · exact List.mem_cons_self _ _

theorem import_exclusive_recreation_witness :
    alookup (reconcile noDerive
        (run noDerive initState [Event.createImport impOne (portSpec 1234),
          Event.extDeleteService (svcKey impOne)]) impOne).1.imports impOne =
      some ⟨portSpec 1234, validStatus⟩ ∧
    alookup (reconcile noDerive
        (run noDerive initState [Event.createImport impOne (portSpec 1234),
          Event.extDeleteService (svcKey impOne)]) impOne).1.services (svcKey impOne) =
      some ⟨80, some appName, some "imp1", some "ns", 1⟩ ∧
    Write.createService (svcKey impOne) ∈ (reconcile noDerive
        (run noDerive initState [Event.createImport impOne (portSpec 1234),
          Event.extDeleteService (svcKey impOne)]) impOne).2 :=
  import_exclusive_recreation.1 noDerive
    (run noDerive initState [Event.createImport impOne (portSpec 1234),
      Event.extDeleteService (svcKey impOne)]) impOne
    ⟨portSpec 1234, validStatus⟩ (by decide) (by decide) (by decide) (by decide)

/-- Create an exclusive Import, then an external actor flips the managed-by
label of its service to another owner, and the Import is requeued. -/
def foreignTrace : List Event :=
  [Event.createImport impOne (portSpec 1234),
    Event.extSetLabels (svcKey impOne) (some "other") (some "imp1") (some "ns"),
    Event.requeue impOne]

/-- ... then the label is restored and the Import requeued again. -/
def restoreTrace : List Event :=
  foreignTrace ++
    [Event.extSetLabels (svcKey impOne) (some appName) (some "imp1") (some "ns"),
      Event.requeue impOne]

/-- C5: foreign objects are never mutated.  (1) Reconciling against an
object whose managed-by label names a different owner only writes
`ServiceValid=false`: the service store — hence the object — is untouched.
(2) With the label pointing back at us the same reconciliation only writes
`ServiceValid=true`, again leaving the service store untouched, so the
object is never deleted and recreated.  (3) In the concrete
label-flip scenario the object keeps its original uid throughout. -/
theorem foreign_object_never_mutated :
    (∀ derive st id rec o m,
      alookup st.imports id = some rec →
      alookup st.services (svcKey id) = some o →
      o.managedBy = some m → m ≠ appName →
      (alookup st.reservations (id.ns, effPort derive id rec.spec) = none ∨
        alookup st.reservations (id.ns, effPort derive id rec.spec) = some id.name) →
      alookup (reconcile derive st id).1.imports id =
        some ⟨rec.spec, serviceConflictStatus⟩ ∧
      (reconcile derive st id).1.services = st.services ∧
      ∀ w ∈ (reconcile derive st id).2, w = Write.statusUpdate id)
    ∧ (∀ derive st id rec o,
      alookup st.imports id = some rec →
      alookup st.services (svcKey id) = some o →
      o.managedBy = some appName → o.importName = some id.name →
      o.importNamespace = some id.ns →
      (alookup st.reservations (id.ns, effPort derive id rec.spec) = none ∨
        alookup st.reservations (id.ns, effPort derive id rec.spec) = some id.name) →
      alookup (reconcile derive st id).1.imports id = some ⟨rec.spec, validStatus⟩ ∧
      (reconcile derive st id).1.services = st.services ∧
      ∀ w ∈ (reconcile derive st id).2, w = Write.statusUpdate id)
    ∧ ((alookup (run noDerive initState foreignTrace).imports impOne).map
        (fun r => r.status.serviceValid.value) = some false
      ∧ alookup (run noDerive initState foreignTrace).services (svcKey impOne) =
        some ⟨80, some "other", some "imp1", some "ns", 0⟩)
    ∧ ((alookup (run noDerive initState restoreTrace).imports impOne).map
        (fun r => r.status.serviceValid.value) = some true
      ∧ alookup (run noDerive initState restoreTrace).services (svcKey impOne) =
        some ⟨80, some appName, some "imp1", some "ns", 0⟩) := by
  refine ⟨?_, ?_, by decide, by decide⟩
  · intro derive st id rec o m h hsvc hmb hm hfree
    obtain ⟨tbl, hres⟩ := reserve_free_or_own _ _ _ hfree
    rw [reconcile_eq_ok derive st id rec tbl h hres]
    rw [reconcileService_eq_foreign_managed { st with reservations := tbl }
      id rec o m hsvc hmb hm]
    refine ⟨setStatus_imports_self _ id serviceConflictStatus rec h, ?_, ?_⟩
    · rw [setStatus_services]
    · intro w hw
      rcases setStatus_writes _ id serviceConflictStatus with hh | hh <;>
        rw [hh] at hw <;> simp at hw
      exact hw
  · intro derive st id rec o h hsvc hmb hn hns hfree
    obtain ⟨tbl, hres⟩ := reserve_free_or_own _ _ _ hfree
    rw [reconcile_eq_ok derive st id rec tbl h hres]
    rw [reconcileService_eq_owned { st with reservations := tbl }
      id rec o hsvc hmb hn hns]
    refine ⟨setStatus_imports_self _ id validStatus rec h, ?_, ?_⟩
    · rw [setStatus_services]
    · intro w hw
      rcases setStatus_writes _ id validStatus with hh | hh <;>
        rw [hh] at hw <;> simp at hw
      exact hw

theorem foreign_object_never_mutated_witness :
    (alookup (reconcile noDerive
        (run noDerive initState [Event.createImport impOne (portSpec 1234),
          Event.extSetLabels (svcKey impOne) (some "other") (some "imp1") (some "ns")])
        impOne).1.imports impOne = some ⟨portSpec 1234, serviceConflictStatus⟩ ∧
      (reconcile noDerive
        (run noDerive initState [Event.createImport impOne (portSpec 1234),
          Event.extSetLabels (svcKey impOne) (some "other") (some "imp1") (some "ns")])
        impOne).1.services =
        (run noDerive initState [Event.createImport impOne (portSpec 1234),
          Event.extSetLabels (svcKey impOne) (some "other") (some "imp1") (some "ns")]).services ∧
      ∀ w ∈ (reconcile noDerive
        (run noDerive initState [Event.createImport impOne (portSpec 1234),
          Event.extSetLabels (svcKey impOne) (some "other") (some "imp1") (some "ns")])
        impOne).2, w = Write.statusUpdate impOne)
    ∧ (alookup (reconcile noDerive (run noDerive initState restoreTrace) impOne).1.imports
        impOne = some ⟨portSpec 1234, validStatus⟩ ∧
      (reconcile noDerive (run noDerive initState restoreTrace) impOne).1.services =
        (run noDerive initState restoreTrace).services ∧
      ∀ w ∈ (reconcile noDerive (run noDerive initState restoreTrace) impOne).2,
        w = Write.statusUpdate impOne) :=
  ⟨foreign_object_never_mutated.1 noDerive
      (run noDerive initState [Event.createImport impOne (portSpec 1234),
        Event.extSetLabels (svcKey impOne) (some "other") (some "imp1") (some "ns")])
      impOne ⟨portSpec 1234, validStatus⟩
      ⟨80, some "other", some "imp1", some "ns", 0⟩ "other"
      (by decide) (by decide) (by decide) (by decide) (by decide),
    foreign_object_never_mutated.2.1 noDerive (run noDerive initState restoreTrace)
      impOne ⟨portSpec 1234, validStatus⟩
      ⟨80, some appName, some "imp1", some "ns", 0⟩
      (by decide) (by decide) (by decide) (by decide) (by decide) (by decide)⟩

/-- C7: an empty endpoint set is valid; no-route is not an error.
Reconciling an Import that holds its port and owns its object keeps
`TargetPortValid=true` and `ServiceValid=true` even when every source
resolves to zero live dataplane endpoints (in particular with zero
sources); the service object is still there, and a connection attempt then
fails with a connection reset at the data path, not with not-found. -/
theorem no_route_is_not_an_error (derive : ImportID → Nat) (st : ClusterState)
    (id : ImportID) (rec : ImportRecord) (o : ServiceObject)
    (h : alookup st.imports id = some rec)
    (hsvc : alookup st.services (svcKey id) = some o)
    (hmb : o.managedBy = some appName) (hn : o.importName = some id.name)
    (hns : o.importNamespace = some id.ns)
    (hfree : alookup st.reservations (id.ns, effPort derive id rec.spec) = none ∨
      alookup st.reservations (id.ns, effPort derive id rec.spec) = some id.name)
    (hdown : ∀ s ∈ rec.spec.sources, resolveSource st.dataplanes s = []) :
    (alookup (reconcile derive st id).1.imports id).map
      (fun r => (r.status.targetPortValid.value, r.status.serviceValid.value)) =
      some (true, true) ∧
    alookup (reconcile derive st id).1.services (svcKey id) = some o ∧
    connect (reconcile derive st id).1 id = ConnResult.connectionReset ∧
    connect (reconcile derive st id).1 id ≠ ConnResult.serviceNotFound := by
  obtain ⟨tbl, hres⟩ := reserve_free_or_own _ _ _ hfree
  rw [reconcile_eq_ok derive st id rec tbl h hres]
  rw [reconcileService_eq_owned { st with reservations := tbl } id rec o hsvc hmb hn hns]
  have himp := setStatus_imports_self { st with reservations := tbl } id validStatus rec h
  have hs : alookup (setStatus { st with reservations := tbl } id validStatus).1.services
      (svcKey id) = some o := by
    rw [setStatus_services]
    exact hsvc
  have hdp : (setStatus { st with reservations := tbl } id validStatus).1.dataplanes =
      st.dataplanes := by
    rw [setStatus_dataplanes]
  have hsync : syncEndpoints rec.spec.sources
      (setStatus { st with reservations := tbl } id validStatus).1.dataplanes = [] := by
    rw [hdp]
    exact syncEndpoints_empty _ _ hdown
  refine ⟨by rw [himp]; rfl, hs, ?_, ?_⟩
  · unfold connect
    simp only [hs, himp, hsync]
  · unfold connect
    simp only [hs, himp, hsync]
    simp

theorem no_route_is_not_an_error_witness :
    (alookup (reconcile noDerive (run noDerive initState [Event.createImport impOne
        (portSpec 1234)]) impOne).1.imports impOne).map
      (fun r => (r.status.targetPortValid.value, r.status.serviceValid.value)) =
      some (true, true) ∧
    alookup (reconcile noDerive (run noDerive initState [Event.createImport impOne
        (portSpec 1234)]) impOne).1.services (svcKey impOne) =
      some ⟨80, some appName, some "imp1", some "ns", 0⟩ ∧
    connect (reconcile noDerive (run noDerive initState [Event.createImport impOne
        (portSpec 1234)]) impOne).1 impOne = ConnResult.connectionReset ∧
    connect (reconcile noDerive (run noDerive initState [Event.createImport impOne
        (portSpec 1234)]) impOne).1 impOne ≠ ConnResult.serviceNotFound :=
  no_route_is_not_an_error noDerive
    (run noDerive initState [Event.createImport impOne (portSpec 1234)]) impOne
    ⟨portSpec 1234, validStatus⟩ ⟨80, some appName, some "imp1", some "ns", 0⟩
    (by decide) (by decide) (by decide) (by decide) (by decide) (by decide)
    (by decide)

/-! ## Claim C8: error propagation policy -/

/-- C8: error propagation policy.  (1) Reconciling an Import never touches
another Import's record, so no error lands on a different Import.  (2)
Every write of a reconciliation is either this Import's status update or a
create/update of this Import's own service object — errors are recorded
only in the Import's status conditions.  (3) The Create operation that
triggered the reconciliation never receives a reconciliation error: after
handling a create event the Import always exists (its status carrying any
error). -/
theorem reconciliation_error_propagation :
    (∀ derive st id id', id' ≠ id →
      alookup (reconcile derive st id).1.imports id' = alookup st.imports id')
    ∧ (∀ derive st id w, w ∈ (reconcile derive st id).2 →
      w = Write.statusUpdate id ∨ w = Write.createService (svcKey id) ∨
        w = Write.updateService (svcKey id))
    ∧ (∀ derive st id spec,
      (alookup (step derive st (Event.createImport id spec)).1.imports id).isSome =
        true) := by
  refine ⟨?_, ?_, ?_⟩
  · intro derive st id id' h
    exact reconcile_imports_ne derive st id id' h
  · intro derive st id w hw
    exact reconcile_writes derive st id w hw
  · intro derive st id spec
    unfold step
    cases hc : alookup st.imports id with
    | some r => simp [hc]
    | none =>
      simp only [hc]
      obtain ⟨s, hs⟩ := reconcile_self derive
        { st with imports := aupdate st.imports id ⟨spec, initStatus⟩ } id
        ⟨spec, initStatus⟩ (alookup_aupdate_self _ _ _)
      rw [hs]
      rfl

theorem reconciliation_error_propagation_witness :
    alookup (reconcile noDerive (run noDerive initState conflictTrace) impTwo).1.imports
      impOne = alookup (run noDerive initState conflictTrace).imports impOne ∧
    (Write.createService (svcKey impOne) = Write.statusUpdate impOne ∨
      Write.createService (svcKey impOne) = Write.createService (svcKey impOne) ∨
      Write.createService (svcKey impOne) = Write.updateService (svcKey impOne)) ∧
    (alookup (step noDerive initState
      (Event.createImport impOne (portSpec 1234))).1.imports impOne).isSome = true :=
  ⟨reconciliation_error_propagation.1 noDerive (run noDerive initState conflictTrace)
      impTwo impOne (by decide),
    reconciliation_error_propagation.2.1 noDerive
      ⟨[(impOne, ⟨portSpec 1234, initStatus⟩)], [], [], [], 0⟩ impOne
      (Write.createService (svcKey impOne)) (by decide),
    reconciliation_error_propagation.2.2 noDerive initState impOne (portSpec 1234)⟩

/-! ## Claim C10: Import name length limit -/

/-- Modelled from the spec: the Create-time validation of the Import name
at the public interface — the CRD schema length rule exercised by
`TestImportInvalidName` (not part of the snapshot): a name of more than 63
characters is rejected with an error, any shorter name passes validation
and Create proceeds. -/
def createImportChecked (derive : ImportID → Nat) (st : ClusterState)
    (id : ImportID) (spec : ImportSpec) : Except String (ClusterState × List Write) :=
  if id.name.length ≤ 63 then
    Except.ok (step derive st (Event.createImport id spec))
  else Except.error "InvalidName"

/-- C10: Import name length limit.  Create accepts every Import whose name
has at most 63 characters and rejects every Import whose name has 64 or
more characters with an error: the bound at the public interface is
exactly 63. -/
theorem import_name_length_limit (derive : ImportID → Nat) (st : ClusterState)
    (id : ImportID) (spec : ImportSpec) :
    (id.name.length ≤ 63 → createImportChecked derive st id spec =
      Except.ok (step derive st (Event.createImport id spec))) ∧
    (64 ≤ id.name.length → createImportChecked derive st id spec =
      Except.error "InvalidName") := by
  constructor
  · intro h
    unfold createImportChecked
    rw [if_pos h]
  · intro h
    unfold createImportChecked
    rw [if_neg (by omega)]

theorem import_name_length_limit_witness :
    createImportChecked noDerive initState
      ⟨"ns", String.mk (List.replicate 63 'a')⟩ (portSpec 1) =
      Except.ok (step noDerive initState (Event.createImport
        ⟨"ns", String.mk (List.replicate 63 'a')⟩ (portSpec 1))) ∧
    createImportChecked noDerive initState
      ⟨"ns", String.mk (List.replicate 64 'a')⟩ (portSpec 1) =
      Except.error "InvalidName" :=
  ⟨(import_name_length_limit noDerive initState
      ⟨"ns", String.mk (List.replicate 63 'a')⟩ (portSpec 1)).1 (by decide),
    (import_name_length_limit noDerive initState
      ⟨"ns", String.mk (List.replicate 64 'a')⟩ (portSpec 1)).2 (by decide)⟩

end ClusterLink
